import Mathlib

/-!
# Skynet daemon: subservice supervisor (`cmd/skydaemon/daemon.go`)

A shallow embedding of the RPC handlers of `SkynetDaemon`.

* A `*SubService` is a nullable address (`Ptr`); the records themselves live in the
  state of the external collaborators, of an arbitrary type `σ`.
* The collaborators that `daemon.go` calls but does not define (`skynet.UUID`,
  `NewSubService`, the methods of `*SubService`, the global log level, the Unicode
  table behind `%q`) are the fields of `Collab σ`; every theorem holds for every
  choice of them.
* `map[string]T` is a list of entries with pairwise distinct keys.  Ranging over a Go
  map visits the entries in an unspecified order; a `GoMap` value fixes one order
  and the theorems quantify over every `GoMap`, hence over every order.
* Each handler returns the state after the call, the response and the `error`
  (`none` for `nil`, `some msg` for an error whose `Error()` is `msg`).
* `trace` is a ghost log of the calls made to the collaborators, in order.
* Go strings are modelled by Lean strings (valid UTF-8 only); `int` is 64 bits wide.
* The handlers are run one at a time.  What each of them does with `serviceLock` is
  kept apart, as the sequence of its lock operations and map accesses (`Access`).
-/

namespace Skynet

/-! ## Go maps with string keys -/

/-- Assignment `m[k] = v` on the entry list: overwrite the entry of `k`, or add one. -/
def insertEntry {α : Type} (k : String) (v : α) : List (String × α) → List (String × α)
  | [] => [(k, v)]
  | e :: t => if e.1 = k then (k, v) :: t else e :: insertEntry k v t

theorem keys_insertEntry_of_mem {α : Type} (k : String) (v : α) (l : List (String × α))
    (h : k ∈ l.map Prod.fst) : (insertEntry k v l).map Prod.fst = l.map Prod.fst := by
  induction l with
  | nil => simp at h
  | cons e t ih =>
    unfold insertEntry
    by_cases he : e.1 = k
    · simp [he]
    · have ht : k ∈ t.map Prod.fst := by
        simp only [List.map_cons, List.mem_cons] at h
        rcases h with h | h
        · exact absurd h.symm he
        · exact h
      simp [he, ih ht]

theorem insertEntry_of_not_mem {α : Type} (k : String) (v : α) (l : List (String × α))
    (h : k ∉ l.map Prod.fst) : insertEntry k v l = l ++ [(k, v)] := by
  induction l with
  | nil => rfl
  | cons e t ih =>
    unfold insertEntry
    simp only [List.map_cons, List.mem_cons, not_or] at h
    have he : ¬ e.1 = k := fun hh => h.1 hh.symm
    simp [he, ih h.2]

theorem nodup_keys_insertEntry {α : Type} (k : String) (v : α) (l : List (String × α))
    (h : (l.map Prod.fst).Nodup) : ((insertEntry k v l).map Prod.fst).Nodup := by
  by_cases hk : k ∈ l.map Prod.fst
  · rw [keys_insertEntry_of_mem k v l hk]; exact h
  · rw [insertEntry_of_not_mem k v l hk]
    simp only [List.map_append, List.map_cons, List.map_nil]
    rw [List.nodup_append]
    refine ⟨h, by simp, ?_⟩
    intro a ha hb
    simp only [List.mem_singleton] at hb
    exact hk (hb ▸ ha)

/-- A Go `map[string]α` (non-nil): entries with pairwise distinct keys. -/
structure GoMap (α : Type) where
  entries : List (String × α)
  nodup : (entries.map Prod.fst).Nodup

namespace GoMap

/-- The value `make(map[string]α)`. -/
def empty {α : Type} : GoMap α := ⟨[], List.nodup_nil⟩

/-- The keys, in iteration order. -/
def keys {α : Type} (m : GoMap α) : List String := m.entries.map Prod.fst

/-- Go `len(m)`. -/
def len {α : Type} (m : GoMap α) : Nat := m.entries.length

/-- The comma-ok lookup `v, ok := m[k]`. -/
def get? {α : Type} (m : GoMap α) (k : String) : Option α := m.entries.lookup k

/-- Go `m[k] = v`. -/
def insert {α : Type} (m : GoMap α) (k : String) (v : α) : GoMap α :=
  ⟨insertEntry k v m.entries, nodup_keys_insertEntry k v m.entries m.nodup⟩

end GoMap

/-! ## Data model -/

/-- A `*SubService`: `none` is the nil pointer, `some a` the record at address `a`. -/
abbrev Ptr := Option Nat

/-- The fields of a `SubService` record that `daemon.go` reads. -/
structure SubService where
  ServicePath : String
  Args : String
  running : Bool
deriving DecidableEq, Repr

/-- Ghost log entry: one call made by the daemon to a collaborator. -/
inductive Call where
  | UUID
  | NewSubService (binaryName args uuid : String)
  | Start (ss : Ptr)
  | Stop (ss : Ptr)
  | Register (ss : Ptr)
  | Unregister (ss : Ptr)
  | Restart (ss : Ptr)
  | SetLogLevel (ss : Ptr) (level : String)
  | LogSetLogLevel (level : String)
  | Shutdown
deriving DecidableEq, Repr

/-- The collaborators of the daemon, over an external state `σ`. -/
structure Collab (σ : Type) where
  /-- Go `skynet.UUID()`. -/
  UUID : σ → String × σ
  /-- Go `NewSubService(binaryName, args, uuid)`, returning `(ss, err)`. -/
  NewSubService : String → String → String → σ → (Ptr × Option String) × σ
  /-- Go `ss.Start()`, returning `(started, err)`. -/
  Start : Ptr → σ → (Bool × Option String) × σ
  Stop : Ptr → σ → Bool × σ
  Register : Ptr → σ → Bool × σ
  Unregister : Ptr → σ → Bool × σ
  Restart : Ptr → σ → σ
  SetLogLevel : Ptr → String → σ → Bool × σ
  /-- Go `log.SetLogLevel(log.LevelFromString(level))`. -/
  LogSetLogLevel : String → σ → σ
  /-- The record stored at an address. -/
  deref : σ → Nat → SubService
  /-- The tables of `strconv.IsPrint` for runes above U+00FF. -/
  IsPrintWide : Nat → Bool

/-- The daemon: the `Services` map, with the external state and the ghost call log. -/
structure SkynetDaemon (σ : Type) where
  Services : GoMap Ptr
  world : σ
  trace : List Call

/-- What a handler leaves behind: the state, the response and the returned `error`. -/
structure Ret (σ ρ : Type) where
  sd : SkynetDaemon σ
  out : ρ
  err : Option String

structure StartSubServiceRequest where
  BinaryName : String
  Args : String
deriving DecidableEq, Repr

structure StartSubServiceResponse where
  UUID : String
deriving DecidableEq, Repr

/-- Request of the per-id operations Stop, Register, Unregister and Restart. -/
structure UUIDRequest where
  UUID : String
deriving DecidableEq, Repr

/-- Response of StopSubService, RegisterSubService and UnregisterSubService. -/
structure OkResponse where
  Ok : Bool
  UUID : String
deriving DecidableEq, Repr

abbrev StopSubServiceRequest := UUIDRequest
abbrev RegisterSubServiceRequest := UUIDRequest
abbrev UnregisterSubServiceRequest := UUIDRequest
abbrev RestartSubServiceRequest := UUIDRequest
abbrev StopSubServiceResponse := OkResponse
abbrev RegisterSubServiceResponse := OkResponse
abbrev UnregisterSubServiceResponse := OkResponse

structure RestartSubServiceResponse where
  UUID : String
deriving DecidableEq, Repr

structure SubServiceLogLevelRequest where
  UUID : String
  Level : String
deriving DecidableEq, Repr

structure SubServiceLogLevelResponse where
  Ok : Bool
  UUID : String
  Level : String
deriving DecidableEq, Repr

structure SubServiceInfo where
  UUID : String
  ServicePath : String
  Args : String
  Running : Bool
deriving DecidableEq, Repr

structure ListSubServicesResponse where
  Services : GoMap SubServiceInfo

structure StopAllSubServicesResponse where
  Count : Int
  Stops : List StopSubServiceResponse
deriving DecidableEq, Repr

structure RestartAllSubServicesResponse where
  Restarts : List RestartSubServiceResponse
deriving DecidableEq, Repr

structure LogLevelRequest where
  Level : String
deriving DecidableEq, Repr

structure LogLevelResponse where
  Ok : Bool
  Level : String
deriving DecidableEq, Repr

structure StopResponse where
  Ok : Bool
deriving DecidableEq, Repr

/-- The zero value of `StopSubServiceResponse`. -/
def zeroStop : StopSubServiceResponse := ⟨false, ""⟩

/-- The zero value of `RestartSubServiceResponse`. -/
def zeroRestart : RestartSubServiceResponse := ⟨""⟩

/-- The zero value of `StopAllSubServicesResponse`. -/
def zeroStopAll : StopAllSubServicesResponse := ⟨0, []⟩

/-- The zero value of `RestartAllSubServicesResponse`. -/
def zeroRestartAll : RestartAllSubServicesResponse := ⟨[]⟩

/-- Go `int` arithmetic: wrap into the signed 64-bit range. -/
def wrapInt (x : Int) : Int := (x + 2 ^ 63) % 2 ^ 64 - 2 ^ 63

/-! ## `fmt.Sprintf("%q", s)`: `strconv.Quote` -/

/-- The double quote `"` (U+0022). -/
def dquote : Char := Char.ofNat 34

/-- The backslash (U+005C). -/
def backslash : Char := Char.ofNat 92

/-- Go `lowerhex[n]`, for `n < 16`. -/
def lowerhex (n : Nat) : Char := "0123456789abcdef".data.getD n '0'

/-- Go `strconv.IsPrint`: Latin-1 is decided in line, the rest by the tables. -/
def IsPrint (wide : Nat → Bool) (r : Char) : Bool :=
  if r.toNat ≤ 0xFF then
    if 0x20 ≤ r.toNat ∧ r.toNat < 0x7F then true
    else if 0xA1 ≤ r.toNat then r.toNat != 0xAD
    else false
  else wide r.toNat

/-- Go `strconv.appendEscapedRune` with `quote = '"'`, `ASCIIonly = graphicOnly = false`. -/
def appendEscapedRune (wide : Nat → Bool) (r : Char) : List Char :=
  if r = dquote ∨ r = backslash then [backslash, r]
  else if IsPrint wide r then [r]
  else if r.toNat = 7 then [backslash, 'a']
  else if r.toNat = 8 then [backslash, 'b']
  else if r.toNat = 12 then [backslash, 'f']
  else if r.toNat = 10 then [backslash, 'n']
  else if r.toNat = 13 then [backslash, 'r']
  else if r.toNat = 9 then [backslash, 't']
  else if r.toNat = 11 then [backslash, 'v']
  else if r.toNat < 0x20 ∨ r.toNat = 0x7F then
    [backslash, 'x', lowerhex (r.toNat / 16 % 16), lowerhex (r.toNat % 16)]
  else if r.toNat < 0x10000 then
    backslash :: 'u' :: [12, 8, 4, 0].map (fun sh => lowerhex (r.toNat / 2 ^ sh % 16))
  else
    backslash :: 'U' ::
      [28, 24, 20, 16, 12, 8, 4, 0].map (fun sh => lowerhex (r.toNat / 2 ^ sh % 16))

/-- Go `strconv.Quote(s)`, which `%q` prints for a string operand. -/
def Quote (wide : Nat → Bool) (s : String) : String :=
  ⟨dquote :: (s.data.flatMap (appendEscapedRune wide) ++ [dquote])⟩

/-- Substring: `sub` occurs in `msg` as a contiguous run of characters. -/
def Contains (msg sub : String) : Prop :=
  ∃ pre post : List Char, msg.data = pre ++ sub.data ++ post

/-- Whether the second list begins with the first. -/
def startsWith : List Char → List Char → Bool
  | [], _ => true
  | _ :: _, [] => false
  | a :: as, b :: bs => a == b && startsWith as bs

/-- Executable substring test. -/
def containsB (sub : List Char) : List Char → Bool
  | [] => startsWith sub []
  | c :: t => startsWith sub (c :: t) || containsB sub t

/-! ## The handlers -/

section Handlers

variable {σ : Type}

/-- Go `errors.New(fmt.Sprintf("No such service UUID %q", uuid))`. -/
def noSuchService (E : Collab σ) (uuid : String) : String :=
  "No such service UUID " ++ Quote E.IsPrintWide uuid

/-- Go `getSubService`: the map lookup, nil when the key is absent. -/
def getSubService (s : SkynetDaemon σ) (uuid : String) : Ptr :=
  (s.Services.get? uuid).getD none

/-- Go `StartSubService`. -/
def StartSubService (E : Collab σ) (s : SkynetDaemon σ) (req : StartSubServiceRequest)
    (out : StartSubServiceResponse) : Ret σ StartSubServiceResponse :=
  let g := E.UUID s.world
  let out1 : StartSubServiceResponse := { out with UUID := g.1 }
  let n := E.NewSubService req.BinaryName req.Args out1.UUID g.2
  let tr1 := s.trace ++ [Call.UUID, Call.NewSubService req.BinaryName req.Args out1.UUID]
  match n.1.2 with
  | some e => ⟨{ s with world := n.2, trace := tr1 }, out1, some e⟩
  | none =>
    let ss := n.1.1
    let services := s.Services.insert out1.UUID ss
    let st := E.Start ss n.2
    let s1 : SkynetDaemon σ := ⟨services, st.2, tr1 ++ [Call.Start ss]⟩
    match st.1.2 with
    | some m => ⟨s1, out1, some ("Service failed to start: " ++ m)⟩
    | none =>
      if !st.1.1 then ⟨s1, out1, some "Service failed to start"⟩
      else ⟨s1, out1, none⟩

/-- The body of the loop of `ListSubServices`; `none` is the nil-pointer panic of
`ss.ServicePath` on a nil record. -/
def listLoop (E : Collab σ) (w : σ) :
    List (String × Ptr) → GoMap SubServiceInfo → Option (GoMap SubServiceInfo)
  | [], m => some m
  | (_, none) :: _, _ => none
  | (uuid, some a) :: t, m =>
    listLoop E w t (m.insert uuid
      { UUID := uuid, ServicePath := (E.deref w a).ServicePath,
        Args := (E.deref w a).Args, Running := (E.deref w a).running })

/-- Go `ListSubServices`; `none` when the handler panics. -/
def ListSubServices (E : Collab σ) (s : SkynetDaemon σ) (out : ListSubServicesResponse) :
    Option (Ret σ ListSubServicesResponse) :=
  let out1 : ListSubServicesResponse := { out with Services := GoMap.empty }
  if s.Services.len = 0 then
    some ⟨s, out1, some "No services started"⟩
  else
    match listLoop E s.world s.Services.entries out1.Services with
    | none => none
    | some m => some ⟨s, { out1 with Services := m }, none⟩

/-- Go `StopSubService`. -/
def StopSubService (E : Collab σ) (s : SkynetDaemon σ) (req : StopSubServiceRequest)
    (out : StopSubServiceResponse) : Ret σ StopSubServiceResponse :=
  match getSubService s req.UUID with
  | some a =>
    let r := E.Stop (some a) s.world
    ⟨{ s with world := r.2, trace := s.trace ++ [Call.Stop (some a)] },
      { out with Ok := r.1, UUID := req.UUID }, none⟩
  | none => ⟨s, out, some (noSuchService E req.UUID)⟩

/-- Go `RegisterSubService`. -/
def RegisterSubService (E : Collab σ) (s : SkynetDaemon σ) (req : RegisterSubServiceRequest)
    (out : RegisterSubServiceResponse) : Ret σ RegisterSubServiceResponse :=
  match getSubService s req.UUID with
  | some a =>
    let r := E.Register (some a) s.world
    ⟨{ s with world := r.2, trace := s.trace ++ [Call.Register (some a)] },
      { out with Ok := r.1, UUID := req.UUID }, none⟩
  | none => ⟨s, out, some (noSuchService E req.UUID)⟩

/-- Go `UnregisterSubService`. -/
def UnregisterSubService (E : Collab σ) (s : SkynetDaemon σ)
    (req : UnregisterSubServiceRequest) (out : UnregisterSubServiceResponse) :
    Ret σ UnregisterSubServiceResponse :=
  match getSubService s req.UUID with
  | some a =>
    let r := E.Unregister (some a) s.world
    ⟨{ s with world := r.2, trace := s.trace ++ [Call.Unregister (some a)] },
      { out with Ok := r.1, UUID := req.UUID }, none⟩
  | none => ⟨s, out, some (noSuchService E req.UUID)⟩

/-- Go `RestartSubService`. -/
def RestartSubService (E : Collab σ) (s : SkynetDaemon σ) (req : RestartSubServiceRequest)
    (out : RestartSubServiceResponse) : Ret σ RestartSubServiceResponse :=
  match getSubService s req.UUID with
  | some a =>
    ⟨{ s with world := E.Restart (some a) s.world,
              trace := s.trace ++ [Call.Restart (some a)] },
      { out with UUID := req.UUID }, none⟩
  | none => ⟨s, out, some (noSuchService E req.UUID)⟩

/-- Go `SubServiceLogLevel`. -/
def SubServiceLogLevel (E : Collab σ) (s : SkynetDaemon σ) (req : SubServiceLogLevelRequest)
    (out : SubServiceLogLevelResponse) : Ret σ SubServiceLogLevelResponse :=
  match getSubService s req.UUID with
  | some a =>
    let r := E.SetLogLevel (some a) req.Level s.world
    ⟨{ s with world := r.2, trace := s.trace ++ [Call.SetLogLevel (some a) req.Level] },
      { out with Ok := r.1, UUID := req.UUID, Level := req.Level }, none⟩
  | none => ⟨s, out, some (noSuchService E req.UUID)⟩

/-- The loop `for i, uuid := range uuids` of `StopAllSubServices`, from index `i` on. -/
def stopAllLoop (E : Collab σ) :
    List String → Nat → SkynetDaemon σ → StopAllSubServicesResponse →
      Ret σ StopAllSubServicesResponse
  | [], _, s, out => ⟨s, out, none⟩
  | uuid :: rest, i, s, out =>
    let r := StopSubService E s ⟨uuid⟩ (out.Stops.getD i zeroStop)
    let out1 : StopAllSubServicesResponse := { out with Stops := out.Stops.set i r.out }
    match r.err with
    | some e => ⟨r.sd, out1, some e⟩
    | none =>
      let out2 : StopAllSubServicesResponse :=
        if (out1.Stops.getD i zeroStop).Ok then { out1 with Count := wrapInt (out1.Count + 1) }
        else out1
      stopAllLoop E rest (i + 1) r.sd out2

/-- Go `StopAllSubServices`. -/
def StopAllSubServices (E : Collab σ) (s : SkynetDaemon σ) (out : StopAllSubServicesResponse) :
    Ret σ StopAllSubServicesResponse :=
  let uuids := s.Services.keys
  let out1 : StopAllSubServicesResponse :=
    { out with Stops := List.replicate uuids.length zeroStop }
  stopAllLoop E uuids 0 s out1

/-- The loop `for i, uuid := range uuids` of `RestartAllSubServices`, from index `i` on. -/
def restartAllLoop (E : Collab σ) :
    List String → Nat → SkynetDaemon σ → RestartAllSubServicesResponse →
      Ret σ RestartAllSubServicesResponse
  | [], _, s, out => ⟨s, out, none⟩
  | uuid :: rest, i, s, out =>
    let r := RestartSubService E s ⟨uuid⟩ (out.Restarts.getD i zeroRestart)
    let out1 : RestartAllSubServicesResponse := { out with Restarts := out.Restarts.set i r.out }
    match r.err with
    | some e => ⟨r.sd, out1, some e⟩
    | none => restartAllLoop E rest (i + 1) r.sd out1

/-- Go `RestartAllSubServices`. -/
def RestartAllSubServices (E : Collab σ) (s : SkynetDaemon σ)
    (out : RestartAllSubServicesResponse) : Ret σ RestartAllSubServicesResponse :=
  let uuids := s.Services.keys
  if uuids.length = 0 then ⟨s, out, some "No services started"⟩
  else
    let out1 : RestartAllSubServicesResponse :=
      { out with Restarts := List.replicate uuids.length zeroRestart }
    restartAllLoop E uuids 0 s out1

/-- Go `LogLevel`. -/
def LogLevel (E : Collab σ) (s : SkynetDaemon σ) (req : LogLevelRequest)
    (out : LogLevelResponse) : Ret σ LogLevelResponse :=
  ⟨{ s with world := E.LogSetLogLevel req.Level s.world,
            trace := s.trace ++ [Call.LogSetLogLevel req.Level] },
    { out with Ok := true, Level := req.Level }, none⟩

/-- One iteration of the loop of `Stop`: `ss.Stop()`, the result dropped. -/
def stopOne (E : Collab σ) (s : SkynetDaemon σ) (e : String × Ptr) : SkynetDaemon σ :=
  { s with world := (E.Stop e.2 s.world).2, trace := s.trace ++ [Call.Stop e.2] }

/-- Go `Stop` (whole daemon); `go s.Service.Shutdown()` is logged as requested. -/
def Stop (E : Collab σ) (s : SkynetDaemon σ) (out : StopResponse) : Ret σ StopResponse :=
  let out1 : StopResponse := { out with Ok := true }
  let s1 := s.Services.entries.foldl (stopOne E) s
  ⟨{ s1 with trace := s1.trace ++ [Call.Shutdown] }, out1, none⟩

/-- The first `k` iterations of the loop of `StopAllSubServices`: the run up to the
moment at which the step of index `k` is invoked. -/
def stopAllUpTo (E : Collab σ) (s : SkynetDaemon σ) (out : StopAllSubServicesResponse)
    (k : Nat) : Ret σ StopAllSubServicesResponse :=
  stopAllLoop E (s.Services.keys.take k) 0 s
    { out with Stops := List.replicate s.Services.keys.length zeroStop }

/-- The first `k` iterations of the loop of `RestartAllSubServices`. -/
def restartAllUpTo (E : Collab σ) (s : SkynetDaemon σ) (out : RestartAllSubServicesResponse)
    (k : Nat) : Ret σ RestartAllSubServicesResponse :=
  restartAllLoop E (s.Services.keys.take k) 0 s
    { out with Restarts := List.replicate s.Services.keys.length zeroRestart }

end Handlers

/-! ## A concrete collaborator, for evaluating the handlers -/

/-- External state of the test double: the records, the identifiers the generator
will hand out, and the addresses whose `Stop` reports `false`. -/
structure TestWorld where
  heap : List SubService
  ids : List String
  stopFails : List Nat
deriving DecidableEq, Repr

/-- Set the `running` flag of the record at an address. -/
def setRunning (a : Nat) (b : Bool) (w : TestWorld) : TestWorld :=
  { w with heap := w.heap.modify (fun r => { r with running := b }) a }

/-- A test double: ids come from a list, a record is built unless the binary name is
empty, `Start` fails on the paths `bad` (returns false) and `err` (returns an error),
`Stop` returns false on the addresses listed in `stopFails`. -/
def testCollab : Collab TestWorld where
  UUID w := (w.ids.headD "", { w with ids := w.ids.tail })
  NewSubService bin args _ w :=
    if bin = "" then ((none, some "no binary"), w)
    else ((some w.heap.length, none), { w with heap := w.heap ++ [⟨bin, args, false⟩] })
  Start p w :=
    match p with
    | none => ((false, some "nil subservice"), w)
    | some a =>
      if (w.heap.getD a ⟨"", "", false⟩).ServicePath = "bad" then ((false, none), w)
      else if (w.heap.getD a ⟨"", "", false⟩).ServicePath = "err" then
        ((false, some "exec failed"), w)
      else ((true, none), setRunning a true w)
  Stop p w :=
    match p with
    | none => (false, w)
    | some a => if a ∈ w.stopFails then (false, w) else (true, setRunning a false w)
  Register _ w := (true, w)
  Unregister _ w := (true, w)
  Restart p w :=
    match p with
    | none => w
    | some a => setRunning a true w
  SetLogLevel _ _ w := (true, w)
  LogSetLogLevel _ w := w
  deref w a := w.heap.getD a ⟨"", "", false⟩
  IsPrintWide _ := true

/-- A daemon with no subservice. -/
def emptyDaemon : SkynetDaemon TestWorld := ⟨GoMap.empty, ⟨[], [], []⟩, []⟩

/-- The identifier `a"b`. -/
def quotedId : String := ⟨['a', dquote, 'b']⟩

/-- Two running subservices `a` and `b`; `Stop` of the first returns false. -/
def twoDaemon : SkynetDaemon TestWorld :=
  ⟨⟨[("a", some 0), ("b", some 1)], by decide⟩,
    ⟨[⟨"/bin/a", "-x", true⟩, ⟨"/bin/b", "-y", true⟩], [], [0]⟩, []⟩

/-- Three entries, the second holding a nil record. -/
def nilDaemon : SkynetDaemon TestWorld :=
  ⟨⟨[("a", some 0), ("b", none), ("c", some 1)], by decide⟩,
    ⟨[⟨"/bin/a", "-x", true⟩, ⟨"/bin/c", "-z", true⟩], [], []⟩, []⟩

section StartSteps

variable {σ : Type}

/-- The identifier that `StartSubService` draws from `skynet.UUID()`. -/
def newId (E : Collab σ) (s : SkynetDaemon σ) : String := (E.UUID s.world).1

/-- What `NewSubService` returns inside `StartSubService`: `((ss, err), state)`. -/
def newRecord (E : Collab σ) (s : SkynetDaemon σ) (req : StartSubServiceRequest) :
    (Ptr × Option String) × σ :=
  E.NewSubService req.BinaryName req.Args (E.UUID s.world).1 (E.UUID s.world).2

/-- What `ss.Start()` returns inside `StartSubService`: `((start, startErr), state)`. -/
def startResult (E : Collab σ) (s : SkynetDaemon σ) (req : StartSubServiceRequest) :
    (Bool × Option String) × σ :=
  E.Start (newRecord E s req).1.1 (newRecord E s req).2

end StartSteps

/-- The two-subservice daemon, the generator about to hand out `c` then `d`. -/
def startDaemon : SkynetDaemon TestWorld :=
  { twoDaemon with world := { twoDaemon.world with ids := ["c", "d"] } }

section Listing

variable {σ : Type}

/-- The `SubServiceInfo` that `ListSubServices` builds for the record at an address. -/
def infoOf (E : Collab σ) (w : σ) (uuid : String) (a : Nat) : SubServiceInfo :=
  { UUID := uuid, ServicePath := (E.deref w a).ServicePath,
    Args := (E.deref w a).Args, Running := (E.deref w a).running }

end Listing

/-- A registry whose only entry holds a nil record. -/
def nilOnlyDaemon : SkynetDaemon TestWorld :=
  ⟨⟨[("a", none)], by decide⟩, ⟨[], [], []⟩, []⟩

section Uniqueness

variable {σ : Type}

/-- What one `StartSubService` call of a series left: the identifier written to the
response, whether `NewSubService` built the record, and the returned error. -/
structure StartOutcome where
  UUID : String
  built : Bool
  err : Option String
deriving DecidableEq, Repr

/-- A series of `StartSubService` calls on one daemon, each with a fresh response:
the daemon after the last call and the outcome of every call, in order. -/
def startMany (E : Collab σ) :
    SkynetDaemon σ → List StartSubServiceRequest → SkynetDaemon σ × List StartOutcome
  | s, [] => (s, [])
  | s, req :: rest =>
    let r := StartSubService E s req ⟨""⟩
    let t := startMany E r.sd rest
    (t.1, ⟨r.out.UUID, (newRecord E s req).1.2.isNone, r.err⟩ :: t.2)

/-- The contract of the identifier generator: `issued w` holds of the identifiers
handed out so far; `skynet.UUID()` returns one that was not issued and records it, and
neither `NewSubService` nor `Start` forgets an issued identifier. -/
structure UniqueIds (E : Collab σ) (issued : σ → String → Prop) : Prop where
  fresh : ∀ w, ¬ issued w (E.UUID w).1
  recorded : ∀ w, issued (E.UUID w).2 (E.UUID w).1
  keepUUID : ∀ w x, issued w x → issued (E.UUID w).2 x
  keepNew : ∀ b a u w x, issued w x → issued (E.NewSubService b a u w).2 x
  keepStart : ∀ p w x, issued w x → issued (E.Start p w).2 x

end Uniqueness

/-- The test double with a generator that never repeats: the n-th identifier is the
letter `u` written n times, and `ids` logs the identifiers handed out. -/
def seqCollab : Collab TestWorld :=
  { testCollab with
    UUID := fun w =>
      (⟨List.replicate (w.ids.length + 1) 'u'⟩,
        { w with ids := ⟨List.replicate (w.ids.length + 1) 'u'⟩ :: w.ids }) }

/-- The identifiers that `seqCollab` has handed out: those of length at most the
number of identifiers logged. -/
def seqIssued (w : TestWorld) (x : String) : Prop := x.data.length ≤ w.ids.length

/-! ## Locking: the accesses each handler makes to `Services` and `serviceLock` -/

section Locking

variable {σ : Type}

/-- One step of a handler on the shared registry: `serviceLock.Lock()`,
`serviceLock.Unlock()`, a read of `s.Services`, a write to it. -/
inductive Access where
  | Lock
  | Unlock
  | Read
  | Write
deriving DecidableEq, Repr

/-- Whether every read and write in a sequence of accesses happens with the lock
held, given whether it is held at the start. -/
def lockedFrom : Bool → List Access → Bool
  | _, [] => true
  | _, Access.Lock :: t => lockedFrom true t
  | _, Access.Unlock :: t => lockedFrom false t
  | held, Access.Read :: t => held && lockedFrom held t
  | held, Access.Write :: t => held && lockedFrom held t

/-- The locking discipline: starting without the lock, every access to the map is
made with the lock held. -/
def disciplined (l : List Access) : Bool := lockedFrom false l

/-- Lines 62-64, `getSubService`: lock, read `s.Services[uuid]`, unlock. -/
def getSubServiceAccess : List Access := [Access.Lock, Access.Read, Access.Unlock]

/-- Lines 37-44, `StartSubService`: when the record is built, lock, write
`s.Services[out.UUID]`, unlock; no access otherwise. -/
def StartSubServiceAccess (E : Collab σ) (s : SkynetDaemon σ)
    (req : StartSubServiceRequest) : List Access :=
  match (newRecord E s req).1.2 with
  | some _ => []
  | none => [Access.Lock, Access.Write, Access.Unlock]

/-- Lines 69-81, `ListSubServices`: `len(s.Services)` is read, and when it is not zero
the map is read again by the `range`; `serviceLock` is not used. -/
def ListSubServicesAccess (s : SkynetDaemon σ) : List Access :=
  if s.Services.len = 0 then [Access.Read] else [Access.Read, Access.Read]

/-- The per-id steps of a bulk loop: each step calls `getSubService`; the loop ends
after the first step that finds no record. -/
def stepsAccess (s : SkynetDaemon σ) : List String → List Access
  | [] => []
  | uuid :: rest =>
    getSubServiceAccess ++
      (match getSubService s uuid with
      | none => []
      | some _ => stepsAccess s rest)

/-- Lines 88-106, `StopAllSubServices`: the snapshot under the lock, then the steps. -/
def StopAllSubServicesAccess (s : SkynetDaemon σ) : List Access :=
  [Access.Lock, Access.Read, Access.Unlock] ++ stepsAccess s s.Services.keys

/-- Lines 160-178, `RestartAllSubServices`: the snapshot under the lock, then the
steps unless the snapshot is empty. -/
def RestartAllSubServicesAccess (s : SkynetDaemon σ) : List Access :=
  [Access.Lock, Access.Read, Access.Unlock] ++
    (if s.Services.keys.length = 0 then [] else stepsAccess s s.Services.keys)

/-- Lines 206-210, `Stop`: lock, range over `s.Services`, unlock. -/
def StopAccess : List Access := [Access.Lock, Access.Read, Access.Unlock]

end Locking

/-! ## Lemmas on maps and strings -/

theorem lookup_eq_none_of_not_mem {α : Type} (k : String) (l : List (String × α))
    (h : k ∉ l.map Prod.fst) : l.lookup k = none := by
  induction l with
  | nil => rfl
  | cons e t ih =>
    obtain ⟨k1, v1⟩ := e
    simp only [List.map_cons, List.mem_cons, not_or] at h
    have hne : (k == k1) = false := by simpa using h.1
    simp [List.lookup, hne, ih h.2]

theorem not_mem_of_lookup_eq_none {α : Type} (k : String) (l : List (String × α))
    (h : l.lookup k = none) : k ∉ l.map Prod.fst := by
  induction l with
  | nil => simp
  | cons e t ih =>
    obtain ⟨k1, v1⟩ := e
    by_cases hk : k = k1
    · subst hk; simp [List.lookup] at h
    · have hne : (k == k1) = false := by simpa using hk
      simp only [List.lookup, hne] at h
      simp only [List.map_cons, List.mem_cons, not_or]
      exact ⟨hk, ih h⟩

theorem GoMap.get?_eq_none_iff {α : Type} (m : GoMap α) (k : String) :
    m.get? k = none ↔ k ∉ m.keys :=
  ⟨not_mem_of_lookup_eq_none k m.entries, lookup_eq_none_of_not_mem k m.entries⟩

theorem startsWith_iff (sub l : List Char) :
    startsWith sub l = true ↔ ∃ post, l = sub ++ post := by
  induction sub generalizing l with
  | nil => simp [startsWith]
  | cons a as ih =>
    cases l with
    | nil => simp [startsWith]
    | cons b bs =>
      simp only [startsWith, Bool.and_eq_true, beq_iff_eq, ih, List.cons_append,
        List.cons.injEq]
      constructor
      · rintro ⟨rfl, post, rfl⟩; exact ⟨post, rfl, rfl⟩
      · rintro ⟨post, rfl, rfl⟩; exact ⟨rfl, post, rfl⟩

theorem containsB_iff (sub l : List Char) :
    containsB sub l = true ↔ ∃ pre post, l = pre ++ sub ++ post := by
  induction l with
  | nil =>
    simp only [containsB, startsWith_iff]
    constructor
    · rintro ⟨post, h⟩; exact ⟨[], post, by simpa using h⟩
    · rintro ⟨pre, post, h⟩
      have h1 : pre = [] ∧ sub = [] ∧ post = [] := by
        have := h.symm
        simp only [List.append_eq_nil] at this
        exact ⟨this.1.1, this.1.2, this.2⟩
      exact ⟨[], by simp [h1.2.1]⟩
  | cons c t ih =>
    simp only [containsB, Bool.or_eq_true, startsWith_iff, ih]
    constructor
    · rintro (⟨post, h⟩ | ⟨pre, post, h⟩)
      · exact ⟨[], post, by simpa using h⟩
      · exact ⟨c :: pre, post, by simp [h]⟩
    · rintro ⟨pre, post, h⟩
      cases pre with
      | nil => exact Or.inl ⟨post, by simpa using h⟩
      | cons p ps =>
        simp only [List.cons_append, List.cons.injEq] at h
        exact Or.inr ⟨ps, post, by simpa using h.2⟩

theorem contains_iff (msg sub : String) :
    Contains msg sub ↔ containsB sub.data msg.data = true :=
  (containsB_iff sub.data msg.data).symm

theorem flatMap_appendEscapedRune (wide : Nat → Bool) (cs : List Char)
    (h : ∀ c ∈ cs, IsPrint wide c = true ∧ c ≠ dquote ∧ c ≠ backslash) :
    cs.flatMap (appendEscapedRune wide) = cs := by
  induction cs with
  | nil => rfl
  | cons c t ih =>
    have hc := h c (List.mem_cons_self c t)
    have ht := ih (fun d hd => h d (List.mem_cons_of_mem c hd))
    have h1 : appendEscapedRune wide c = [c] := by
      simp [appendEscapedRune, hc.1, hc.2.1, hc.2.2]
    simp [List.flatMap_cons, h1, ht]

/-! ## Lemmas on the handlers -/

section HandlerLemmas

variable {σ : Type}

theorem set_length_append {α : Type} (done : List α) (y x : α) (tail : List α) :
    (done ++ y :: tail).set done.length x = done ++ x :: tail := by
  induction done with
  | nil => rfl
  | cons d t ih => simp [List.set, ih]

theorem getD_length_append {α : Type} (done : List α) (y d : α) (tail : List α) :
    (done ++ y :: tail).getD done.length d = y := by
  induction done with
  | nil => rfl
  | cons a t ih => simpa [List.getD] using ih

theorem set_getD_self {α : Type} (l : List α) (k : Nat) (d : α) :
    l.set k (l.getD k d) = l := by
  induction l generalizing k with
  | nil => rfl
  | cons a t ih =>
    cases k with
    | zero => rfl
    | succ n => simpa [List.set, List.getD] using ih n

theorem wrapInt_of_bounds (x : Int) (h0 : 0 ≤ x) (h1 : x < 2 ^ 63) : wrapInt x = x := by
  unfold wrapInt
  have h2 : (x + 2 ^ 63) % 2 ^ 64 = x + 2 ^ 63 :=
    Int.emod_eq_of_lt (by omega) (by omega)
  omega

theorem StopSubService_of_none (E : Collab σ) (s : SkynetDaemon σ)
    (req : StopSubServiceRequest) (out : StopSubServiceResponse)
    (h : getSubService s req.UUID = none) :
    StopSubService E s req out = ⟨s, out, some (noSuchService E req.UUID)⟩ := by
  simp [StopSubService, h]

theorem StopSubService_of_some (E : Collab σ) (s : SkynetDaemon σ)
    (req : StopSubServiceRequest) (out : StopSubServiceResponse) (a : Nat)
    (h : getSubService s req.UUID = some a) :
    StopSubService E s req out =
      ⟨{ s with world := (E.Stop (some a) s.world).2,
                trace := s.trace ++ [Call.Stop (some a)] },
        ⟨(E.Stop (some a) s.world).1, req.UUID⟩, none⟩ := by
  simp [StopSubService, h]

theorem StopSubService_of_err (E : Collab σ) (s : SkynetDaemon σ)
    (req : StopSubServiceRequest) (out : StopSubServiceResponse) (e : String)
    (h : (StopSubService E s req out).err = some e) :
    StopSubService E s req out = ⟨s, out, some e⟩ := by
  cases hg : getSubService s req.UUID with
  | none =>
    rw [StopSubService_of_none E s req out hg] at h ⊢
    simp only [Option.some.injEq] at h
    rw [h]
  | some a =>
    rw [StopSubService_of_some E s req out a hg] at h
    simp at h

theorem RestartSubService_of_none (E : Collab σ) (s : SkynetDaemon σ)
    (req : RestartSubServiceRequest) (out : RestartSubServiceResponse)
    (h : getSubService s req.UUID = none) :
    RestartSubService E s req out = ⟨s, out, some (noSuchService E req.UUID)⟩ := by
  simp [RestartSubService, h]

theorem RestartSubService_of_some (E : Collab σ) (s : SkynetDaemon σ)
    (req : RestartSubServiceRequest) (out : RestartSubServiceResponse) (a : Nat)
    (h : getSubService s req.UUID = some a) :
    RestartSubService E s req out =
      ⟨{ s with world := E.Restart (some a) s.world,
                trace := s.trace ++ [Call.Restart (some a)] },
        ⟨req.UUID⟩, none⟩ := by
  simp [RestartSubService, h]

theorem RestartSubService_of_err (E : Collab σ) (s : SkynetDaemon σ)
    (req : RestartSubServiceRequest) (out : RestartSubServiceResponse) (e : String)
    (h : (RestartSubService E s req out).err = some e) :
    RestartSubService E s req out = ⟨s, out, some e⟩ := by
  cases hg : getSubService s req.UUID with
  | none =>
    rw [RestartSubService_of_none E s req out hg] at h ⊢
    simp only [Option.some.injEq] at h
    rw [h]
  | some a =>
    rw [RestartSubService_of_some E s req out a hg] at h
    simp at h

/-- One iteration of the stop loop on a nil or absent record: the loop ends there. -/
theorem stopAllLoop_cons_none (E : Collab σ) (uuid : String) (rest : List String)
    (i : Nat) (s : SkynetDaemon σ) (out : StopAllSubServicesResponse)
    (h : getSubService s uuid = none) :
    stopAllLoop E (uuid :: rest) i s out = ⟨s, out, some (noSuchService E uuid)⟩ := by
  unfold stopAllLoop
  simp only [StopSubService_of_none E s ⟨uuid⟩ _ h, set_getD_self]

/-- One iteration of the stop loop on a record: the slot is filled, the count updated. -/
theorem stopAllLoop_cons_some (E : Collab σ) (uuid : String) (rest : List String)
    (s : SkynetDaemon σ) (c : Int) (done : List StopSubServiceResponse)
    (y : StopSubServiceResponse) (tail : List StopSubServiceResponse) (a : Nat)
    (h : getSubService s uuid = some a) :
    stopAllLoop E (uuid :: rest) done.length s ⟨c, done ++ y :: tail⟩ =
      stopAllLoop E rest (done ++ [OkResponse.mk (E.Stop (some a) s.world).1 uuid]).length
        { s with world := (E.Stop (some a) s.world).2,
                 trace := s.trace ++ [Call.Stop (some a)] }
        ⟨if (E.Stop (some a) s.world).1 then wrapInt (c + 1) else c,
          (done ++ [OkResponse.mk (E.Stop (some a) s.world).1 uuid]) ++ tail⟩ := by
  rw [stopAllLoop]
  simp only [StopSubService_of_some E s ⟨uuid⟩ _ a h, set_length_append,
    getD_length_append, List.length_append, List.length_singleton, List.append_assoc,
    List.singleton_append]
  split <;> rfl

theorem restartAllLoop_cons_none (E : Collab σ) (uuid : String) (rest : List String)
    (i : Nat) (s : SkynetDaemon σ) (out : RestartAllSubServicesResponse)
    (h : getSubService s uuid = none) :
    restartAllLoop E (uuid :: rest) i s out = ⟨s, out, some (noSuchService E uuid)⟩ := by
  unfold restartAllLoop
  simp only [RestartSubService_of_none E s ⟨uuid⟩ _ h, set_getD_self]

theorem restartAllLoop_cons_some (E : Collab σ) (uuid : String) (rest : List String)
    (s : SkynetDaemon σ) (done : List RestartSubServiceResponse)
    (y : RestartSubServiceResponse) (tail : List RestartSubServiceResponse) (a : Nat)
    (h : getSubService s uuid = some a) :
    restartAllLoop E (uuid :: rest) done.length s ⟨done ++ y :: tail⟩ =
      restartAllLoop E rest (done ++ [RestartSubServiceResponse.mk uuid]).length
        { s with world := E.Restart (some a) s.world,
                 trace := s.trace ++ [Call.Restart (some a)] }
        ⟨(done ++ [RestartSubServiceResponse.mk uuid]) ++ tail⟩ := by
  rw [restartAllLoop]
  simp only [RestartSubService_of_some E s ⟨uuid⟩ _ a h, set_length_append,
    List.length_append, List.length_singleton, List.append_assoc,
    List.singleton_append]

theorem stopAllLoop_spec (E : Collab σ) (l : List String) :
    ∀ (done : List StopSubServiceResponse) (m : Nat) (s : SkynetDaemon σ) (c : Int),
      l.length ≤ m →
      ∃ filled : List StopSubServiceResponse,
        (stopAllLoop E l done.length s ⟨c, done ++ List.replicate m zeroStop⟩).out.Stops
          = done ++ filled ++ List.replicate (m - filled.length) zeroStop ∧
        filled.length ≤ l.length ∧
        filled.map (fun r => r.UUID) = l.take filled.length ∧
        ((stopAllLoop E l done.length s ⟨c, done ++ List.replicate m zeroStop⟩).err = none →
          filled.length = l.length) ∧
        (0 ≤ c → c + l.length < 2 ^ 63 →
          (stopAllLoop E l done.length s ⟨c, done ++ List.replicate m zeroStop⟩).out.Count
            = c + (filled.countP (fun r => r.Ok) : Nat)) ∧
        (stopAllLoop E l done.length s ⟨c, done ++ List.replicate m zeroStop⟩).sd.Services
          = s.Services := by
  induction l with
  | nil =>
    intro done m s c _
    refine ⟨[], ?_⟩
    simp [stopAllLoop]
  | cons uuid rest ih =>
    intro done m s c hm
    cases m with
    | zero => simp at hm
    | succ n =>
      have hn : rest.length ≤ n := by simpa using hm
      rw [List.replicate_succ]
      cases hg : getSubService s uuid with
      | none =>
        rw [stopAllLoop_cons_none E uuid rest done.length s _ hg]
        refine ⟨[], ?_⟩
        simp [List.replicate_succ]
      | some a =>
        rw [stopAllLoop_cons_some E uuid rest s c done zeroStop _ a hg]
        obtain ⟨filled, h1, h2, h3, h4, h5, h6⟩ :=
          ih (done ++ [OkResponse.mk (E.Stop (some a) s.world).1 uuid]) n
            { s with world := (E.Stop (some a) s.world).2,
                     trace := s.trace ++ [Call.Stop (some a)] }
            (if (E.Stop (some a) s.world).1 then wrapInt (c + 1) else c) hn
        refine ⟨OkResponse.mk (E.Stop (some a) s.world).1 uuid :: filled, ?_, ?_, ?_, ?_, ?_, ?_⟩
        · rw [h1]; simp
        · simpa using h2
        · simp [h3]
        · intro he; simp [h4 he]
        · intro hc0 hc1
          simp only [List.length_cons, Nat.cast_add, Nat.cast_one] at hc1
          cases hok : (E.Stop (some a) s.world).1 with
          | false =>
            simp only [hok, Bool.false_eq_true, if_false] at h5 ⊢
            rw [h5 hc0 (by omega)]; simp
          | true =>
            have hw : wrapInt (c + 1) = c + 1 := wrapInt_of_bounds _ (by omega) (by omega)
            simp only [hok, if_true, hw] at h5 ⊢
            rw [h5 (by omega) (by omega)]; simp; omega
        · exact h6

theorem restartAllLoop_spec (E : Collab σ) (l : List String) :
    ∀ (done : List RestartSubServiceResponse) (m : Nat) (s : SkynetDaemon σ),
      l.length ≤ m →
      ∃ filled : List RestartSubServiceResponse,
        (restartAllLoop E l done.length s ⟨done ++ List.replicate m zeroRestart⟩).out.Restarts
          = done ++ filled ++ List.replicate (m - filled.length) zeroRestart ∧
        filled.length ≤ l.length ∧
        filled.map (fun r => r.UUID) = l.take filled.length ∧
        ((restartAllLoop E l done.length s ⟨done ++ List.replicate m zeroRestart⟩).err = none →
          filled.length = l.length) ∧
        (restartAllLoop E l done.length s ⟨done ++ List.replicate m zeroRestart⟩).sd.Services
          = s.Services := by
  induction l with
  | nil =>
    intro done m s _
    refine ⟨[], ?_⟩
    simp [restartAllLoop]
  | cons uuid rest ih =>
    intro done m s hm
    cases m with
    | zero => simp at hm
    | succ n =>
      have hn : rest.length ≤ n := by simpa using hm
      rw [List.replicate_succ]
      cases hg : getSubService s uuid with
      | none =>
        rw [restartAllLoop_cons_none E uuid rest done.length s _ hg]
        refine ⟨[], ?_⟩
        simp [List.replicate_succ]
      | some a =>
        rw [restartAllLoop_cons_some E uuid rest s done zeroRestart _ a hg]
        obtain ⟨filled, h1, h2, h3, h4, h6⟩ :=
          ih (done ++ [RestartSubServiceResponse.mk uuid]) n
            { s with world := E.Restart (some a) s.world,
                     trace := s.trace ++ [Call.Restart (some a)] } hn
        refine ⟨RestartSubServiceResponse.mk uuid :: filled, ?_, ?_, ?_, ?_, ?_⟩
        · rw [h1]; simp
        · simpa using h2
        · simp [h3]
        · intro he; simp [h4 he]
        · exact h6


theorem stopAllLoop_cons_step (E : Collab σ) (uuid : String) (rest : List String)
    (i : Nat) (s : SkynetDaemon σ) (out : StopAllSubServicesResponse) (a : Nat)
    (h : getSubService s uuid = some a) :
    stopAllLoop E (uuid :: rest) i s out =
      stopAllLoop E rest (i + 1)
        { s with world := (E.Stop (some a) s.world).2,
                 trace := s.trace ++ [Call.Stop (some a)] }
        (if ((out.Stops.set i ⟨(E.Stop (some a) s.world).1, uuid⟩).getD i zeroStop).Ok then
          ⟨wrapInt (out.Count + 1), out.Stops.set i ⟨(E.Stop (some a) s.world).1, uuid⟩⟩
        else ⟨out.Count, out.Stops.set i ⟨(E.Stop (some a) s.world).1, uuid⟩⟩) := by
  rw [stopAllLoop]
  simp only [StopSubService_of_some E s ⟨uuid⟩ _ a h]

theorem restartAllLoop_cons_step (E : Collab σ) (uuid : String) (rest : List String)
    (i : Nat) (s : SkynetDaemon σ) (out : RestartAllSubServicesResponse) (a : Nat)
    (h : getSubService s uuid = some a) :
    restartAllLoop E (uuid :: rest) i s out =
      restartAllLoop E rest (i + 1)
        { s with world := E.Restart (some a) s.world,
                 trace := s.trace ++ [Call.Restart (some a)] }
        ⟨out.Restarts.set i ⟨uuid⟩⟩ := by
  rw [restartAllLoop]
  simp only [RestartSubService_of_some E s ⟨uuid⟩ _ a h]

/-- The stop loop over a concatenation: run the first part, and the second only when
the first ended without error. -/
theorem stopAllLoop_append (E : Collab σ) (l1 l2 : List String) :
    ∀ (i : Nat) (s : SkynetDaemon σ) (out : StopAllSubServicesResponse),
      (stopAllLoop E l1 i s out).err = none →
      stopAllLoop E (l1 ++ l2) i s out =
        stopAllLoop E l2 (i + l1.length) (stopAllLoop E l1 i s out).sd
          (stopAllLoop E l1 i s out).out := by
  induction l1 with
  | nil => intro i s out _; simp [stopAllLoop]
  | cons u t ih =>
    intro i s out h
    rw [List.cons_append]
    cases hg : getSubService s u with
    | none =>
      rw [stopAllLoop_cons_none E u t i s out hg] at h
      simp at h
    | some a =>
      rw [stopAllLoop_cons_step E u t i s out a hg] at h ⊢
      rw [stopAllLoop_cons_step E u (t ++ l2) i s out a hg, ih _ _ _ h]
      simp [Nat.add_assoc, Nat.add_comm 1]

theorem restartAllLoop_append (E : Collab σ) (l1 l2 : List String) :
    ∀ (i : Nat) (s : SkynetDaemon σ) (out : RestartAllSubServicesResponse),
      (restartAllLoop E l1 i s out).err = none →
      restartAllLoop E (l1 ++ l2) i s out =
        restartAllLoop E l2 (i + l1.length) (restartAllLoop E l1 i s out).sd
          (restartAllLoop E l1 i s out).out := by
  induction l1 with
  | nil => intro i s out _; simp [restartAllLoop]
  | cons u t ih =>
    intro i s out h
    rw [List.cons_append]
    cases hg : getSubService s u with
    | none =>
      rw [restartAllLoop_cons_none E u t i s out hg] at h
      simp at h
    | some a =>
      rw [restartAllLoop_cons_step E u t i s out a hg] at h ⊢
      rw [restartAllLoop_cons_step E u (t ++ l2) i s out a hg, ih _ _ _ h]
      simp [Nat.add_assoc, Nat.add_comm 1]

theorem StopAllSubServices_spec (E : Collab σ) (s : SkynetDaemon σ)
    (out : StopAllSubServicesResponse) :
    ∃ filled : List StopSubServiceResponse,
      (StopAllSubServices E s out).out.Stops
        = filled ++ List.replicate (s.Services.keys.length - filled.length) zeroStop ∧
      filled.length ≤ s.Services.keys.length ∧
      filled.map (fun r => r.UUID) = s.Services.keys.take filled.length ∧
      ((StopAllSubServices E s out).err = none → filled.length = s.Services.keys.length) ∧
      (0 ≤ out.Count → out.Count + s.Services.keys.length < 2 ^ 63 →
        (StopAllSubServices E s out).out.Count
          = out.Count + (filled.countP (fun r => r.Ok) : Nat)) ∧
      (StopAllSubServices E s out).sd.Services = s.Services := by
  have h := stopAllLoop_spec E s.Services.keys [] s.Services.keys.length s out.Count
    (Nat.le_refl _)
  simpa only [List.length_nil, List.nil_append] using h

theorem RestartAllSubServices_spec (E : Collab σ) (s : SkynetDaemon σ)
    (out : RestartAllSubServicesResponse) (hne : s.Services.keys.length ≠ 0) :
    ∃ filled : List RestartSubServiceResponse,
      (RestartAllSubServices E s out).out.Restarts
        = filled ++ List.replicate (s.Services.keys.length - filled.length) zeroRestart ∧
      filled.length ≤ s.Services.keys.length ∧
      filled.map (fun r => r.UUID) = s.Services.keys.take filled.length ∧
      ((RestartAllSubServices E s out).err = none →
        filled.length = s.Services.keys.length) ∧
      (RestartAllSubServices E s out).sd.Services = s.Services := by
  have h := restartAllLoop_spec E s.Services.keys [] s.Services.keys.length s (Nat.le_refl _)
  simp only [List.length_nil, List.nil_append] at h
  simpa only [RestartAllSubServices, hne, if_false] using h

theorem countP_replicate_zeroStop (n : Nat) :
    (List.replicate n zeroStop).countP (fun r => r.Ok) = 0 := by
  induction n with
  | zero => rfl
  | succ k ih => simp [List.replicate_succ, zeroStop, ih]

theorem getElem?_append_replicate {α : Type} (filled : List α) (m j : Nat) (z : α)
    (h1 : filled.length ≤ j) (h2 : j < filled.length + m) :
    (filled ++ List.replicate m z)[j]? = some z := by
  rw [List.getElem?_append_right h1, List.getElem?_replicate]
  simp; omega

theorem keys_split (l : List String) (k : Nat) (hk : k < l.length) :
    l = l.take k ++ (l.getD k "" :: l.drop (k + 1)) := by
  have h1 : l.getD k "" = l[k] := by simp [List.getD, List.getElem?_eq_getElem hk]
  rw [h1, ← List.drop_eq_getElem_cons hk, List.take_append_drop]

theorem stopAll_fail_fast (E : Collab σ) (s : SkynetDaemon σ) (k : Nat) (e : String)
    (out : StopAllSubServicesResponse) (hk : k < s.Services.keys.length)
    (hpre : (stopAllUpTo E s out k).err = none)
    (hstep : (StopSubService E (stopAllUpTo E s out k).sd ⟨s.Services.keys.getD k ""⟩
      ((stopAllUpTo E s out k).out.Stops.getD k zeroStop)).err = some e) :
    StopAllSubServices E s out
      = ⟨(stopAllUpTo E s out k).sd, (stopAllUpTo E s out k).out, some e⟩ ∧
    ∀ j, k ≤ j → j < s.Services.keys.length →
      (stopAllUpTo E s out k).out.Stops[j]? = some zeroStop := by
  have hlen : (s.Services.keys.take k).length = k := by
    rw [List.length_take]; omega
  constructor
  · have h1 : StopAllSubServices E s out
        = stopAllLoop E (s.Services.keys.take k ++
            (s.Services.keys.getD k "" :: s.Services.keys.drop (k + 1))) 0 s
            { out with Stops := List.replicate s.Services.keys.length zeroStop } :=
      congrArg (fun l => stopAllLoop E l 0 s
        { out with Stops := List.replicate s.Services.keys.length zeroStop })
        (keys_split s.Services.keys k hk)
    rw [h1, stopAllLoop_append E _ _ 0 s _ hpre, hlen, Nat.zero_add]
    have h2 := StopSubService_of_err E _ _ _ e hstep
    rw [stopAllLoop]
    simp only [stopAllUpTo] at h2
    simp only [stopAllUpTo, h2, set_getD_self]
  · intro j hj1 hj2
    obtain ⟨filled, h1, h2, -, h4, -⟩ :=
      stopAllLoop_spec E (s.Services.keys.take k) [] s.Services.keys.length s out.Count
        (by rw [hlen]; omega)
    simp only [List.length_nil, List.nil_append] at h1 h4
    have hf : filled.length = k := by rw [h4 hpre, hlen]
    simp only [stopAllUpTo]
    rw [h1]
    exact getElem?_append_replicate filled _ j zeroStop (by omega) (by omega)

theorem restartAll_fail_fast (E : Collab σ) (s : SkynetDaemon σ) (k : Nat) (e : String)
    (out : RestartAllSubServicesResponse) (hk : k < s.Services.keys.length)
    (hpre : (restartAllUpTo E s out k).err = none)
    (hstep : (RestartSubService E (restartAllUpTo E s out k).sd ⟨s.Services.keys.getD k ""⟩
      ((restartAllUpTo E s out k).out.Restarts.getD k zeroRestart)).err = some e) :
    RestartAllSubServices E s out
      = ⟨(restartAllUpTo E s out k).sd, (restartAllUpTo E s out k).out, some e⟩ ∧
    ∀ j, k ≤ j → j < s.Services.keys.length →
      (restartAllUpTo E s out k).out.Restarts[j]? = some zeroRestart := by
  have hlen : (s.Services.keys.take k).length = k := by
    rw [List.length_take]; omega
  have hne : ¬ s.Services.keys.length = 0 := by omega
  constructor
  · have h1 : RestartAllSubServices E s out
        = restartAllLoop E (s.Services.keys.take k ++
            (s.Services.keys.getD k "" :: s.Services.keys.drop (k + 1))) 0 s
            { out with Restarts := List.replicate s.Services.keys.length zeroRestart } := by
      simp only [RestartAllSubServices, hne, if_false]
      exact congrArg (fun l => restartAllLoop E l 0 s
        { out with Restarts := List.replicate s.Services.keys.length zeroRestart })
        (keys_split s.Services.keys k hk)
    rw [h1, restartAllLoop_append E _ _ 0 s _ hpre, hlen, Nat.zero_add]
    have h2 := RestartSubService_of_err E _ _ _ e hstep
    rw [restartAllLoop]
    simp only [restartAllUpTo] at h2
    simp only [restartAllUpTo, h2, set_getD_self]
  · intro j hj1 hj2
    obtain ⟨filled, h1, h2, -, h4, -⟩ :=
      restartAllLoop_spec E (s.Services.keys.take k) [] s.Services.keys.length s
        (by rw [hlen]; omega)
    simp only [List.length_nil, List.nil_append] at h1 h4
    have hf : filled.length = k := by rw [h4 hpre, hlen]
    simp only [restartAllUpTo]
    rw [h1]
    exact getElem?_append_replicate filled _ j zeroRestart (by omega) (by omega)

theorem lookup_insertEntry_self {α : Type} (k : String) (v : α) (l : List (String × α)) :
    (insertEntry k v l).lookup k = some v := by
  induction l with
  | nil => simp [insertEntry, List.lookup]
  | cons e t ih =>
    obtain ⟨k1, v1⟩ := e
    unfold insertEntry
    by_cases he : k1 = k
    · simp [he, List.lookup]
    · have hne : (k == k1) = false := by simpa using fun h => he h.symm
      simp [he, List.lookup, hne, ih]

theorem lookup_insertEntry_of_ne {α : Type} (k k2 : String) (v : α) (l : List (String × α))
    (h : k2 ≠ k) : (insertEntry k v l).lookup k2 = l.lookup k2 := by
  induction l with
  | nil =>
    have hne : (k2 == k) = false := by simpa using h
    simp [insertEntry, List.lookup, hne]
  | cons e t ih =>
    obtain ⟨k1, v1⟩ := e
    unfold insertEntry
    by_cases he : k1 = k
    · subst he
      have hne : (k2 == k1) = false := by simpa using h
      simp [List.lookup, hne]
    · simp only [he, if_false, List.lookup, ih]

theorem GoMap.get?_insert_self {α : Type} (m : GoMap α) (k : String) (v : α) :
    (m.insert k v).get? k = some v :=
  lookup_insertEntry_self k v m.entries

theorem GoMap.get?_insert_of_ne {α : Type} (m : GoMap α) (k k2 : String) (v : α)
    (h : k2 ≠ k) : (m.insert k v).get? k2 = m.get? k2 :=
  lookup_insertEntry_of_ne k k2 v m.entries h

theorem GoMap.mem_keys_of_get? {α : Type} (m : GoMap α) (k : String) (v : α)
    (h : m.get? k = some v) : k ∈ m.keys := by
  by_contra hk
  rw [(GoMap.get?_eq_none_iff m k).2 hk] at h
  cases h

/-- `StartSubService` once the record is built: the insertion, then the start. -/
theorem StartSubService_of_built (E : Collab σ) (s : SkynetDaemon σ)
    (req : StartSubServiceRequest) (out : StartSubServiceResponse)
    (hnew : (newRecord E s req).1.2 = none) :
    (StartSubService E s req out).sd.Services
      = s.Services.insert (newId E s) (newRecord E s req).1.1 ∧
    (StartSubService E s req out).out.UUID = newId E s ∧
    (StartSubService E s req out).err
      = (match (startResult E s req).1.2 with
        | some m => some ("Service failed to start: " ++ m)
        | none => if (startResult E s req).1.1 then none
                  else some "Service failed to start") := by
  simp only [newRecord] at hnew
  simp only [StartSubService, hnew, newId, startResult, newRecord]
  split
  · rename_i m hm
    simp [hm]
  · rename_i hm
    split <;> simp_all

theorem listLoop_spec (E : Collab σ) (w : σ) (l : List (String × Ptr)) :
    ∀ m : GoMap SubServiceInfo,
      (∀ e ∈ l, e.2 ≠ none) → (l.map Prod.fst).Nodup →
      (∀ k ∈ l.map Prod.fst, k ∉ m.keys) →
      ∃ m2, listLoop E w l m = some m2 ∧
        m2.keys = m.keys ++ l.map Prod.fst ∧
        (∀ id, id ∉ l.map Prod.fst → m2.get? id = m.get? id) ∧
        (∀ id a, l.lookup id = some (some a) → m2.get? id = some (infoOf E w id a)) := by
  induction l with
  | nil =>
    intro m _ _ _
    exact ⟨m, rfl, by simp, fun _ _ => rfl, by simp [List.lookup]⟩
  | cons e t ih =>
    intro m hnil hnd hdis
    obtain ⟨uuid, p⟩ := e
    cases p with
    | none => exact absurd rfl (hnil (uuid, none) (List.mem_cons_self _ _))
    | some a =>
      simp only [List.map_cons, List.nodup_cons] at hnd
      have hu : uuid ∉ m.keys := hdis uuid (by simp)
      have hkeys : (m.insert uuid (infoOf E w uuid a)).keys = m.keys ++ [uuid] := by
        simp only [GoMap.keys, GoMap.insert]
        rw [insertEntry_of_not_mem _ _ _ hu]
        simp
      obtain ⟨m2, h1, h2, h3, h4⟩ := ih (m.insert uuid (infoOf E w uuid a))
        (fun e he => hnil e (List.mem_cons_of_mem _ he)) hnd.2
        (by
          intro k hk
          rw [hkeys]
          simp only [List.mem_append, List.mem_singleton, not_or]
          refine ⟨hdis k (by simp [hk]), ?_⟩
          rintro rfl
          exact hnd.1 hk)
      refine ⟨m2, ?_, ?_, ?_, ?_⟩
      · simpa [listLoop, infoOf] using h1
      · rw [h2, hkeys]; simp
      · intro id hid
        simp only [List.map_cons, List.mem_cons, not_or] at hid
        rw [h3 id hid.2, GoMap.get?_insert_of_ne _ _ _ _ hid.1]
      · intro id b hb
        by_cases hid : id = uuid
        · subst hid
          simp only [List.lookup, beq_self_eq_true, Option.some.injEq] at hb
          cases hb
          rw [h3 id hnd.1, GoMap.get?_insert_self]
        · have hne : (id == uuid) = false := by simpa using hid
          simp only [List.lookup, hne] at hb
          exact h4 id b hb

theorem foldl_stopOne_Services (E : Collab σ) (l : List (String × Ptr)) :
    ∀ s : SkynetDaemon σ, (l.foldl (stopOne E) s).Services = s.Services := by
  induction l with
  | nil => intro s; rfl
  | cons e t ih => intro s; rw [List.foldl_cons, ih]; rfl

theorem StopSubService_Services (E : Collab σ) (s : SkynetDaemon σ)
    (req : StopSubServiceRequest) (out : StopSubServiceResponse) :
    (StopSubService E s req out).sd.Services = s.Services := by
  unfold StopSubService; split <;> rfl

theorem RegisterSubService_Services (E : Collab σ) (s : SkynetDaemon σ)
    (req : RegisterSubServiceRequest) (out : RegisterSubServiceResponse) :
    (RegisterSubService E s req out).sd.Services = s.Services := by
  unfold RegisterSubService; split <;> rfl

theorem UnregisterSubService_Services (E : Collab σ) (s : SkynetDaemon σ)
    (req : UnregisterSubServiceRequest) (out : UnregisterSubServiceResponse) :
    (UnregisterSubService E s req out).sd.Services = s.Services := by
  unfold UnregisterSubService; split <;> rfl

theorem RestartSubService_Services (E : Collab σ) (s : SkynetDaemon σ)
    (req : RestartSubServiceRequest) (out : RestartSubServiceResponse) :
    (RestartSubService E s req out).sd.Services = s.Services := by
  unfold RestartSubService; split <;> rfl

theorem SubServiceLogLevel_Services (E : Collab σ) (s : SkynetDaemon σ)
    (req : SubServiceLogLevelRequest) (out : SubServiceLogLevelResponse) :
    (SubServiceLogLevel E s req out).sd.Services = s.Services := by
  unfold SubServiceLogLevel; split <;> rfl

theorem ListSubServices_sd (E : Collab σ) (s : SkynetDaemon σ)
    (out : ListSubServicesResponse) (r : Ret σ ListSubServicesResponse)
    (h : ListSubServices E s out = some r) : r.sd = s := by
  unfold ListSubServices at h
  by_cases hz : s.Services.len = 0
  · simp only [hz, if_true, Option.some.injEq] at h
    rw [← h]
  · simp only [hz, if_false] at h
    cases hl : listLoop E s.world s.Services.entries GoMap.empty with
    | none => simp [hl] at h
    | some m =>
      simp only [hl, Option.some.injEq] at h
      rw [← h]

theorem RestartAllSubServices_Services (E : Collab σ) (s : SkynetDaemon σ)
    (out : RestartAllSubServicesResponse) :
    (RestartAllSubServices E s out).sd.Services = s.Services := by
  by_cases hz : s.Services.keys.length = 0
  · simp [RestartAllSubServices, hz]
  · obtain ⟨_, -, -, -, -, h⟩ := RestartAllSubServices_spec E s out hz
    exact h

/-- The registry after `StartSubService`: untouched when the record could not be
built, and the assignment `Services[uuid] = ss` otherwise. -/
theorem StartSubService_Services (E : Collab σ) (s : SkynetDaemon σ)
    (req : StartSubServiceRequest) (out : StartSubServiceResponse) :
    (StartSubService E s req out).sd.Services
      = (match (newRecord E s req).1.2 with
        | some _ => s.Services
        | none => s.Services.insert (newId E s) (newRecord E s req).1.1) := by
  cases hnew : (newRecord E s req).1.2 with
  | none => exact (StartSubService_of_built E s req out hnew).1
  | some e =>
    simp only [newRecord] at hnew
    simp [StartSubService, hnew]

theorem lookup_of_mem_nodup {α : Type} (l : List (String × α))
    (hnd : (l.map Prod.fst).Nodup) (k : String) (v : α) (h : (k, v) ∈ l) :
    l.lookup k = some v := by
  induction l with
  | nil => cases h
  | cons e t ih =>
    obtain ⟨k1, v1⟩ := e
    simp only [List.map_cons, List.nodup_cons] at hnd
    rcases List.mem_cons.1 h with h1 | h1
    · cases h1
      simp [List.lookup]
    · have hk : k ≠ k1 := by
        rintro rfl
        exact hnd.1 (List.mem_map_of_mem Prod.fst h1)
      have hne : (k == k1) = false := by simpa using hk
      simp only [List.lookup, hne]
      exact ih hnd.2 h1

theorem getSubService_of_mem (s : SkynetDaemon σ) (k : String) (p : Ptr)
    (h : (k, p) ∈ s.Services.entries) : getSubService s k = p := by
  simp [getSubService, GoMap.get?, lookup_of_mem_nodup _ s.Services.nodup k p h]

theorem getSubService_of_get? (s : SkynetDaemon σ) (k : String) (p : Ptr)
    (h : s.Services.get? k = some p) : getSubService s k = p := by
  simp [getSubService, h]

theorem foldl_stopOne_trace (E : Collab σ) (l : List (String × Ptr)) :
    ∀ s : SkynetDaemon σ,
      (l.foldl (stopOne E) s).trace = s.trace ++ l.map (fun e => Call.Stop e.2) := by
  induction l with
  | nil => intro s; simp
  | cons e t ih =>
    intro s
    rw [List.foldl_cons, ih]
    simp [stopOne]

theorem getSubService_congr (s t : SkynetDaemon σ) (u : String)
    (h : t.Services = s.Services) : getSubService t u = getSubService s u := by
  simp [getSubService, h]

/-- A stop loop that ends without error has called `Stop` once per identifier, in
order, on the record registered under it. -/
theorem stopAllLoop_trace (E : Collab σ) (l : List String) :
    ∀ (i : Nat) (s : SkynetDaemon σ) (out : StopAllSubServicesResponse),
      (stopAllLoop E l i s out).err = none →
      (stopAllLoop E l i s out).sd.trace
        = s.trace ++ l.map (fun u => Call.Stop (getSubService s u)) := by
  induction l with
  | nil => intro i s out _; simp [stopAllLoop]
  | cons u t ih =>
    intro i s out h
    cases hg : getSubService s u with
    | none =>
      rw [stopAllLoop_cons_none E u t i s out hg] at h
      simp at h
    | some a =>
      rw [stopAllLoop_cons_step E u t i s out a hg] at h ⊢
      rw [ih _ _ _ h]
      have hc : ∀ v, getSubService
          ({ s with world := (E.Stop (some a) s.world).2,
                    trace := s.trace ++ [Call.Stop (some a)] } : SkynetDaemon σ) v
          = getSubService s v := fun v => rfl
      simp [hc, hg]

theorem restartAllLoop_trace (E : Collab σ) (l : List String) :
    ∀ (i : Nat) (s : SkynetDaemon σ) (out : RestartAllSubServicesResponse),
      (restartAllLoop E l i s out).err = none →
      (restartAllLoop E l i s out).sd.trace
        = s.trace ++ l.map (fun u => Call.Restart (getSubService s u)) := by
  induction l with
  | nil => intro i s out _; simp [restartAllLoop]
  | cons u t ih =>
    intro i s out h
    cases hg : getSubService s u with
    | none =>
      rw [restartAllLoop_cons_none E u t i s out hg] at h
      simp at h
    | some a =>
      rw [restartAllLoop_cons_step E u t i s out a hg] at h ⊢
      rw [ih _ _ _ h]
      have hc : ∀ v, getSubService
          ({ s with world := E.Restart (some a) s.world,
                    trace := s.trace ++ [Call.Restart (some a)] } : SkynetDaemon σ) v
          = getSubService s v := fun v => rfl
      simp [hc, hg]

/-- A stop loop over identifiers that all have a record ends without error. -/
theorem stopAllLoop_err_none (E : Collab σ) (l : List String) :
    ∀ (i : Nat) (s : SkynetDaemon σ) (out : StopAllSubServicesResponse),
      (∀ u ∈ l, getSubService s u ≠ none) → (stopAllLoop E l i s out).err = none := by
  induction l with
  | nil => intro i s out _; simp [stopAllLoop]
  | cons u t ih =>
    intro i s out h
    cases hg : getSubService s u with
    | none => exact absurd hg (h u (List.mem_cons_self _ _))
    | some a =>
      rw [stopAllLoop_cons_step E u t i s out a hg]
      exact ih _ _ _ (fun v hv => h v (List.mem_cons_of_mem _ hv))

theorem restartAllLoop_err_none (E : Collab σ) (l : List String) :
    ∀ (i : Nat) (s : SkynetDaemon σ) (out : RestartAllSubServicesResponse),
      (∀ u ∈ l, getSubService s u ≠ none) → (restartAllLoop E l i s out).err = none := by
  induction l with
  | nil => intro i s out _; simp [restartAllLoop]
  | cons u t ih =>
    intro i s out h
    cases hg : getSubService s u with
    | none => exact absurd hg (h u (List.mem_cons_self _ _))
    | some a =>
      rw [restartAllLoop_cons_step E u t i s out a hg]
      exact ih _ _ _ (fun v hv => h v (List.mem_cons_of_mem _ hv))

/-- The calls `f (record of key)` over the keys are the calls `f` over the entries. -/
theorem map_keys_getSubService (s : SkynetDaemon σ) (f : Ptr → Call) :
    s.Services.keys.map (fun u => f (getSubService s u))
      = s.Services.entries.map (fun e => f e.2) := by
  simp only [GoMap.keys, List.map_map]
  apply List.map_congr_left
  intro e he
  simp [getSubService_of_mem s e.1 e.2 he]

theorem getSubService_ne_none_of_records (s : SkynetDaemon σ)
    (hrec : ∀ e ∈ s.Services.entries, e.2 ≠ none) :
    ∀ u ∈ s.Services.keys, getSubService s u ≠ none := by
  intro u hu
  obtain ⟨e, he, rfl⟩ := List.mem_map.1 hu
  rw [getSubService_of_mem s e.1 e.2 he]
  exact hrec e he

theorem GoMap.mem_keys_insert {α : Type} (m : GoMap α) (k k2 : String) (v : α) :
    k2 ∈ (m.insert k v).keys ↔ k2 = k ∨ k2 ∈ m.keys := by
  by_cases hk : k ∈ m.keys
  · have h : (m.insert k v).keys = m.keys := keys_insertEntry_of_mem k v m.entries hk
    rw [h]
    constructor
    · exact Or.inr
    · rintro (rfl | h2)
      · exact hk
      · exact h2
  · have h : (m.insert k v).keys = m.keys ++ [k] := by
      simp only [GoMap.keys, GoMap.insert]
      rw [insertEntry_of_not_mem k v m.entries hk]
      simp
    rw [h]
    simp [or_comm]

theorem StartSubService_keys_mono (E : Collab σ) (s : SkynetDaemon σ)
    (req : StartSubServiceRequest) (out : StartSubServiceResponse) (k : String)
    (h : k ∈ s.Services.keys) : k ∈ (StartSubService E s req out).sd.Services.keys := by
  rw [StartSubService_Services]
  cases (newRecord E s req).1.2 with
  | some e => exact h
  | none => exact (GoMap.mem_keys_insert _ _ _ _).2 (Or.inr h)

theorem StartSubService_key_of_built (E : Collab σ) (s : SkynetDaemon σ)
    (req : StartSubServiceRequest) (out : StartSubServiceResponse)
    (h : (newRecord E s req).1.2 = none) :
    newId E s ∈ (StartSubService E s req out).sd.Services.keys := by
  rw [StartSubService_Services, h]
  exact (GoMap.mem_keys_insert _ _ _ _).2 (Or.inl rfl)

theorem StartSubService_UUID (E : Collab σ) (s : SkynetDaemon σ)
    (req : StartSubServiceRequest) (out : StartSubServiceResponse) :
    (StartSubService E s req out).out.UUID = newId E s := by
  cases hnew : (newRecord E s req).1.2 with
  | none => exact (StartSubService_of_built E s req out hnew).2.1
  | some e =>
    simp only [newRecord] at hnew
    simp [StartSubService, hnew, newId]

/-- The external state after `StartSubService`: after `NewSubService` when the record
could not be built, after `Start` otherwise. -/
theorem StartSubService_world (E : Collab σ) (s : SkynetDaemon σ)
    (req : StartSubServiceRequest) (out : StartSubServiceResponse) :
    (StartSubService E s req out).sd.world
      = (match (newRecord E s req).1.2 with
        | some _ => (newRecord E s req).2
        | none => (startResult E s req).2) := by
  cases hnew : (newRecord E s req).1.2 with
  | none =>
    simp only [newRecord] at hnew
    simp only [StartSubService, hnew, startResult, newRecord]
    split
    · rfl
    · split <;> rfl
  | some e =>
    simp only [newRecord] at hnew
    simp [StartSubService, hnew, newRecord]

theorem StartSubService_issued (E : Collab σ) (issued : σ → String → Prop)
    (hU : UniqueIds E issued) (s : SkynetDaemon σ) (req : StartSubServiceRequest)
    (out : StartSubServiceResponse) :
    issued (StartSubService E s req out).sd.world (newId E s) ∧
    ∀ x, issued s.world x → issued (StartSubService E s req out).sd.world x := by
  have key : ∀ x, issued (E.UUID s.world).2 x →
      issued (StartSubService E s req out).sd.world x := by
    intro x hx
    rw [StartSubService_world]
    cases (newRecord E s req).1.2 with
    | some e => exact hU.keepNew _ _ _ _ _ hx
    | none => exact hU.keepStart _ _ _ (hU.keepNew _ _ _ _ _ hx)
  exact ⟨key _ (hU.recorded s.world), fun x hx => key x (hU.keepUUID _ _ hx)⟩

theorem startMany_not_issued (E : Collab σ) (issued : σ → String → Prop)
    (hU : UniqueIds E issued) (reqs : List StartSubServiceRequest) :
    ∀ (s : SkynetDaemon σ) (x : String), issued s.world x →
      x ∉ (startMany E s reqs).2.map (fun o => o.UUID) := by
  induction reqs with
  | nil => intro s x _; simp [startMany]
  | cons req rest ih =>
    intro s x hx
    simp only [startMany, List.map_cons, List.mem_cons, not_or]
    refine ⟨?_, ih _ x ((StartSubService_issued E issued hU s req ⟨""⟩).2 x hx)⟩
    rw [StartSubService_UUID]
    rintro rfl
    exact hU.fresh s.world hx

theorem startMany_nodup (E : Collab σ) (issued : σ → String → Prop)
    (hU : UniqueIds E issued) (reqs : List StartSubServiceRequest) :
    ∀ s : SkynetDaemon σ, ((startMany E s reqs).2.map (fun o => o.UUID)).Nodup := by
  induction reqs with
  | nil => intro s; simp [startMany]
  | cons req rest ih =>
    intro s
    simp only [startMany, List.map_cons, List.nodup_cons]
    refine ⟨?_, ih _⟩
    rw [StartSubService_UUID]
    exact startMany_not_issued E issued hU rest _ _
      (StartSubService_issued E issued hU s req ⟨""⟩).1

theorem startMany_keys_mono (E : Collab σ) (reqs : List StartSubServiceRequest) :
    ∀ (s : SkynetDaemon σ) (k : String), k ∈ s.Services.keys →
      k ∈ (startMany E s reqs).1.Services.keys := by
  induction reqs with
  | nil => intro s k h; exact h
  | cons req rest ih =>
    intro s k h
    exact ih _ k (StartSubService_keys_mono E s req ⟨""⟩ k h)

theorem startMany_built_keys (E : Collab σ) (reqs : List StartSubServiceRequest) :
    ∀ (s : SkynetDaemon σ) (o : StartOutcome), o ∈ (startMany E s reqs).2 →
      o.built = true → o.UUID ∈ (startMany E s reqs).1.Services.keys := by
  induction reqs with
  | nil => intro s o h; simp [startMany] at h
  | cons req rest ih =>
    intro s o h hb
    simp only [startMany, List.mem_cons] at h
    rcases h with h | h
    · subst h
      simp only [Option.isNone_iff_eq_none] at hb
      simp only [startMany, StartSubService_UUID]
      exact startMany_keys_mono E rest _ _ (StartSubService_key_of_built E s req ⟨""⟩ hb)
    · exact ih _ o h hb

theorem startMany_length (E : Collab σ) (reqs : List StartSubServiceRequest) :
    ∀ s : SkynetDaemon σ, (startMany E s reqs).2.length = reqs.length := by
  induction reqs with
  | nil => intro s; rfl
  | cons req rest ih => intro s; simp [startMany, ih]

theorem seqCollab_unique : UniqueIds seqCollab seqIssued where
  fresh := by
    intro w h
    simp [seqIssued, seqCollab] at h
  recorded := by
    intro w
    simp [seqIssued, seqCollab]
  keepUUID := by
    intro w x h
    simp only [seqIssued, seqCollab, List.length_cons] at h ⊢
    omega
  keepNew := by
    intro b a u w x h
    simp only [seqIssued, seqCollab, testCollab] at h ⊢
    split <;> exact h
  keepStart := by
    intro p w x h
    simp only [seqIssued, seqCollab, testCollab] at h ⊢
    cases p with
    | none => exact h
    | some a =>
      simp only []
      split
      · exact h
      · split
        · exact h
        · exact h

theorem ListSubServices_of_records (E : Collab σ) (s : SkynetDaemon σ)
    (out : ListSubServicesResponse) (hne : s.Services.len ≠ 0)
    (hrec : ∀ e ∈ s.Services.entries, e.2 ≠ none) :
    ∃ r, ListSubServices E s out = some r ∧ r.err = none ∧
      r.out.Services.keys = s.Services.keys := by
  obtain ⟨m2, h1, h2, -, -⟩ := listLoop_spec E s.world s.Services.entries GoMap.empty hrec
    s.Services.nodup (by simp [GoMap.keys, GoMap.empty])
  refine ⟨⟨s, ⟨m2⟩, none⟩, ?_, rfl, ?_⟩
  · simp [ListSubServices, hne, h1]
  · simpa [GoMap.keys, GoMap.empty] using h2

theorem stepsAccess_disciplined (s : SkynetDaemon σ) (l : List String) :
    ∀ b, lockedFrom b (stepsAccess s l) = true := by
  induction l with
  | nil => intro b; rfl
  | cons u t ih =>
    intro b
    cases hg : getSubService s u with
    | none => simp [stepsAccess, hg, getSubServiceAccess, lockedFrom]
    | some a => simp [stepsAccess, hg, getSubServiceAccess, lockedFrom, ih]

theorem foldl_stopOne_world (E : Collab σ) (l : List (String × Ptr)) :
    ∀ s : SkynetDaemon σ,
      (l.foldl (stopOne E) s).world = l.foldl (fun w e => (E.Stop e.2 w).2) s.world := by
  induction l with
  | nil => intro s; rfl
  | cons e t ih =>
    intro s
    rw [List.foldl_cons, ih, List.foldl_cons]
    rfl

/-- A stop loop that ends without error leaves the external state and the result
sequence that threading `Stop` through the identifiers gives: each `Stop` runs in the
state the previous one left, and its answer is stored with the identifier. -/
theorem stopAllLoop_run (E : Collab σ) (s0 : SkynetDaemon σ) (l : List String) :
    ∀ (done : List StopSubServiceResponse) (m : Nat) (s : SkynetDaemon σ) (c : Int),
      s.Services = s0.Services → l.length ≤ m →
      (stopAllLoop E l done.length s ⟨c, done ++ List.replicate m zeroStop⟩).err = none →
      (stopAllLoop E l done.length s ⟨c, done ++ List.replicate m zeroStop⟩).sd.world
        = (l.foldl (fun acc u =>
            ((E.Stop (getSubService s0 u) acc.1).2,
              acc.2 ++ [OkResponse.mk (E.Stop (getSubService s0 u) acc.1).1 u]))
            (s.world, done)).1 ∧
      (stopAllLoop E l done.length s ⟨c, done ++ List.replicate m zeroStop⟩).out.Stops
        = (l.foldl (fun acc u =>
            ((E.Stop (getSubService s0 u) acc.1).2,
              acc.2 ++ [OkResponse.mk (E.Stop (getSubService s0 u) acc.1).1 u]))
            (s.world, done)).2 ++ List.replicate (m - l.length) zeroStop := by
  induction l with
  | nil =>
    intro done m s c _ _ _
    simp [stopAllLoop]
  | cons u t ih =>
    intro done m s c hS hm herr
    cases m with
    | zero => simp at hm
    | succ n =>
      have hn : t.length ≤ n := by simpa using hm
      have hgs : getSubService s u = getSubService s0 u := getSubService_congr s0 s u hS
      rw [List.replicate_succ] at herr ⊢
      cases hg : getSubService s u with
      | none =>
        rw [stopAllLoop_cons_none E u t done.length s _ hg] at herr
        simp at herr
      | some a =>
        rw [stopAllLoop_cons_some E u t s c done zeroStop _ a hg] at herr ⊢
        have h := ih (done ++ [OkResponse.mk (E.Stop (some a) s.world).1 u]) n
          { s with world := (E.Stop (some a) s.world).2,
                   trace := s.trace ++ [Call.Stop (some a)] }
          (if (E.Stop (some a) s.world).1 then wrapInt (c + 1) else c) hS hn herr
        rw [h.1, h.2, List.foldl_cons, ← hgs, hg]
        simp

theorem restartAllLoop_world (E : Collab σ) (l : List String) :
    ∀ (i : Nat) (s : SkynetDaemon σ) (out : RestartAllSubServicesResponse),
      (restartAllLoop E l i s out).err = none →
      (restartAllLoop E l i s out).sd.world
        = l.foldl (fun w u => E.Restart (getSubService s u) w) s.world := by
  induction l with
  | nil => intro i s out _; simp [restartAllLoop]
  | cons u t ih =>
    intro i s out h
    cases hg : getSubService s u with
    | none =>
      rw [restartAllLoop_cons_none E u t i s out hg] at h
      simp at h
    | some a =>
      rw [restartAllLoop_cons_step E u t i s out a hg] at h ⊢
      rw [ih _ _ _ h, List.foldl_cons, hg]
      rfl

/-- Folding over the keys with the record looked up is folding over the entries. -/
theorem foldl_keys_getSubService {β : Type} (s : SkynetDaemon σ)
    (f : β → String → Ptr → β) (b : β) :
    s.Services.keys.foldl (fun acc u => f acc u (getSubService s u)) b
      = s.Services.entries.foldl (fun acc e => f acc e.1 e.2) b := by
  simp only [GoMap.keys, List.foldl_map]
  apply List.foldl_ext
  intro acc e he
  rw [getSubService_of_mem s e.1 e.2 he]

end HandlerLemmas

/-! ## The claims -/

section Claims

variable {σ : Type}

/-- C1 (as stated, refuted): for the identifier `a"b`, absent from the empty registry,
`StopSubService` returns no error whose message contains that exact identifier: `%q`
prints the identifier with its quote escaped. -/
theorem notFound_message_lacks_quoted_id :
    ¬ ∃ msg, (StopSubService testCollab emptyDaemon ⟨quotedId⟩ zeroStop).err = some msg ∧
      Contains msg quotedId := by
  rintro ⟨msg, h1, h2⟩
  have h3 : (StopSubService testCollab emptyDaemon ⟨quotedId⟩ zeroStop).err
      = some (noSuchService testCollab quotedId) := rfl
  rw [h3] at h1
  cases h1
  rw [contains_iff] at h2
  revert h2
  decide

/-- C1 (amended): for an identifier that is not a key of the registry, StopSubService,
RegisterSubService, UnregisterSubService, RestartSubService and SubServiceLogLevel all
return the same error, whose message is `No such service UUID ` followed by the
identifier as `%q` prints it; that message contains the quoted identifier, and it
contains the exact identifier whenever every character of the identifier is printable
and is neither the double quote nor the backslash. -/
theorem notFound_uniform (E : Collab σ) (s : SkynetDaemon σ) (id level : String)
    (o1 : StopSubServiceResponse) (o2 : RegisterSubServiceResponse)
    (o3 : UnregisterSubServiceResponse) (o4 : RestartSubServiceResponse)
    (o5 : SubServiceLogLevelResponse) (h : s.Services.get? id = none) :
    (StopSubService E s ⟨id⟩ o1).err = some (noSuchService E id) ∧
    (RegisterSubService E s ⟨id⟩ o2).err = some (noSuchService E id) ∧
    (UnregisterSubService E s ⟨id⟩ o3).err = some (noSuchService E id) ∧
    (RestartSubService E s ⟨id⟩ o4).err = some (noSuchService E id) ∧
    (SubServiceLogLevel E s ⟨id, level⟩ o5).err = some (noSuchService E id) ∧
    noSuchService E id = "No such service UUID " ++ Quote E.IsPrintWide id ∧
    Contains (noSuchService E id) (Quote E.IsPrintWide id) ∧
    ((∀ c ∈ id.data, IsPrint E.IsPrintWide c = true ∧ c ≠ dquote ∧ c ≠ backslash) →
      Contains (noSuchService E id) id) := by
  have hg : getSubService s id = none := by simp [getSubService, h]
  refine ⟨?_, ?_, ?_, ?_, ?_, rfl, ?_, ?_⟩
  · simp [StopSubService, hg]
  · simp [RegisterSubService, hg]
  · simp [UnregisterSubService, hg]
  · simp [RestartSubService, hg]
  · simp [SubServiceLogLevel, hg]
  · exact ⟨"No such service UUID ".data, [], by simp [noSuchService]⟩
  · intro hc
    refine ⟨"No such service UUID ".data ++ [dquote], [dquote], ?_⟩
    simp [noSuchService, Quote, flatMap_appendEscapedRune E.IsPrintWide id.data hc]

/-- C1 witness: the identifier `nonexistent-id` on the empty registry. -/
theorem notFound_uniform_witness :
    (StopSubService testCollab emptyDaemon ⟨"nonexistent-id"⟩ zeroStop).err
      = some (noSuchService testCollab "nonexistent-id") ∧
    Contains (noSuchService testCollab "nonexistent-id") "nonexistent-id" :=
  have h := notFound_uniform testCollab emptyDaemon "nonexistent-id" "DEBUG"
    zeroStop zeroStop zeroStop zeroRestart ⟨false, "", ""⟩ rfl
  ⟨h.1, h.2.2.2.2.2.2.2 (by decide)⟩

/-- C2: on an empty registry, ListSubServices and RestartAllSubServices both return the
error `No services started`, while StopAllSubServices returns no error, an empty result
sequence and an unchanged count, which is 0 for a fresh response. -/
theorem empty_fleet (E : Collab σ) (s : SkynetDaemon σ) (o1 : ListSubServicesResponse)
    (o2 : RestartAllSubServicesResponse) (o3 : StopAllSubServicesResponse)
    (h : s.Services.entries = []) :
    (∃ r, ListSubServices E s o1 = some r ∧ r.err = some "No services started") ∧
    (RestartAllSubServices E s o2).err = some "No services started" ∧
    (StopAllSubServices E s o3).err = none ∧
    (StopAllSubServices E s o3).out.Stops = [] ∧
    (StopAllSubServices E s o3).out.Count = o3.Count ∧
    (StopAllSubServices E s zeroStopAll).out.Count = 0 := by
  have hk : s.Services.keys = [] := by simp [GoMap.keys, h]
  refine ⟨⟨⟨s, ⟨GoMap.empty⟩, some "No services started"⟩, ?_, rfl⟩, ?_, ?_, ?_, ?_, ?_⟩
  · simp [ListSubServices, GoMap.len, h]
  · simp [RestartAllSubServices, hk]
  · simp [StopAllSubServices, hk, stopAllLoop]
  · simp [StopAllSubServices, hk, stopAllLoop]
  · simp [StopAllSubServices, hk, stopAllLoop]
  · simp [StopAllSubServices, hk, stopAllLoop, zeroStopAll]

/-- C2 witness: the daemon with no subservice. -/
theorem empty_fleet_witness :
    (RestartAllSubServices testCollab emptyDaemon zeroRestartAll).err
      = some "No services started" ∧
    (StopAllSubServices testCollab emptyDaemon zeroStopAll).err = none ∧
    (StopAllSubServices testCollab emptyDaemon zeroStopAll).out.Count = 0 :=
  have h := empty_fleet testCollab emptyDaemon ⟨GoMap.empty⟩ zeroRestartAll zeroStopAll rfl
  ⟨h.2.1, h.2.2.1, h.2.2.2.2.2⟩

/-- C3: whatever the per-id steps do, the result sequence of StopAllSubServices has as
many entries as the registry has identifiers, and so has that of RestartAllSubServices
when it is called with a fresh response; called with any response, RestartAllSubServices
leaves the sequence untouched on an empty registry and sizes it to the registry
otherwise. -/
theorem bulk_result_size (E : Collab σ) (s : SkynetDaemon σ)
    (o1 : StopAllSubServicesResponse) (o2 : RestartAllSubServicesResponse) :
    (StopAllSubServices E s o1).out.Stops.length = s.Services.keys.length ∧
    (RestartAllSubServices E s zeroRestartAll).out.Restarts.length
      = s.Services.keys.length ∧
    (RestartAllSubServices E s o2).out.Restarts.length
      = if s.Services.keys.length = 0 then o2.Restarts.length
        else s.Services.keys.length := by
  have hgen : ∀ o : RestartAllSubServicesResponse,
      (RestartAllSubServices E s o).out.Restarts.length
        = if s.Services.keys.length = 0 then o.Restarts.length
          else s.Services.keys.length := by
    intro o
    by_cases hz : s.Services.keys.length = 0
    · simp [RestartAllSubServices, hz]
    · obtain ⟨filled, h1, h2, -⟩ := RestartAllSubServices_spec E s o hz
      rw [h1, if_neg hz]
      simp only [List.length_append, List.length_replicate]
      omega
  refine ⟨?_, ?_, hgen o2⟩
  · obtain ⟨filled, h1, h2, -⟩ := StopAllSubServices_spec E s o1
    rw [h1]
    simp only [List.length_append, List.length_replicate]
    omega
  · rw [hgen zeroRestartAll]
    by_cases hz : s.Services.keys.length = 0
    · simp [hz, zeroRestartAll]
    · simp [hz]

/-- C5: called with a response whose count is 0, StopAllSubServices reports a count equal
to the number of entries of its result sequence whose Ok flag is true (the registry
holding fewer than 2^63 identifiers, as every Go map does). -/
theorem stopAll_count (E : Collab σ) (s : SkynetDaemon σ) (out : StopAllSubServicesResponse)
    (h0 : out.Count = 0) (hlen : s.Services.keys.length < 2 ^ 63) :
    (StopAllSubServices E s out).out.Count
      = ((StopAllSubServices E s out).out.Stops.countP (fun r => r.Ok) : Nat) := by
  obtain ⟨filled, h1, -, -, -, h5, -⟩ := StopAllSubServices_spec E s out
  have hc := h5 (by omega) (by rw [h0]; exact_mod_cast (by omega : 0 + s.Services.keys.length < 2 ^ 63))
  rw [hc, h1, h0, List.countP_append, countP_replicate_zeroStop]
  simp

/-- C4: in StopAllSubServices and in RestartAllSubServices, when the steps of index
below `k` return no error and the step of index `k` returns the error `e`, the bulk call
returns exactly `e`; the state it leaves (external state and log of handle calls) is
the one in which step `k` was invoked, so no later step runs; and every entry of the
result sequence at an index from `k` on holds the zero response. -/
theorem bulk_fail_fast (E : Collab σ) (s : SkynetDaemon σ) (k : Nat) (e : String)
    (hk : k < s.Services.keys.length) :
    (∀ out : StopAllSubServicesResponse,
      (stopAllUpTo E s out k).err = none →
      (StopSubService E (stopAllUpTo E s out k).sd ⟨s.Services.keys.getD k ""⟩
        ((stopAllUpTo E s out k).out.Stops.getD k zeroStop)).err = some e →
      (StopAllSubServices E s out).err = some e ∧
      (StopAllSubServices E s out).sd = (stopAllUpTo E s out k).sd ∧
      (StopAllSubServices E s out).out.Count = (stopAllUpTo E s out k).out.Count ∧
      ∀ j, k ≤ j → j < s.Services.keys.length →
        (StopAllSubServices E s out).out.Stops[j]? = some zeroStop) ∧
    (∀ out : RestartAllSubServicesResponse,
      (restartAllUpTo E s out k).err = none →
      (RestartSubService E (restartAllUpTo E s out k).sd ⟨s.Services.keys.getD k ""⟩
        ((restartAllUpTo E s out k).out.Restarts.getD k zeroRestart)).err = some e →
      (RestartAllSubServices E s out).err = some e ∧
      (RestartAllSubServices E s out).sd = (restartAllUpTo E s out k).sd ∧
      ∀ j, k ≤ j → j < s.Services.keys.length →
        (RestartAllSubServices E s out).out.Restarts[j]? = some zeroRestart) := by
  constructor
  · intro out hpre hstep
    obtain ⟨h1, h2⟩ := stopAll_fail_fast E s k e out hk hpre hstep
    rw [h1]
    exact ⟨rfl, rfl, rfl, h2⟩
  · intro out hpre hstep
    obtain ⟨h1, h2⟩ := restartAll_fail_fast E s k e out hk hpre hstep
    rw [h1]
    exact ⟨rfl, rfl, h2⟩

/-- C4 witness: three entries whose second record is nil; the step of index 1 fails, the
bulk calls return its error, only the first handle was called, entry 2 is zero. -/
theorem bulk_fail_fast_witness :
    (StopAllSubServices testCollab nilDaemon zeroStopAll).err
      = some (noSuchService testCollab "b") ∧
    (StopAllSubServices testCollab nilDaemon zeroStopAll).sd.trace = [Call.Stop (some 0)] ∧
    (StopAllSubServices testCollab nilDaemon zeroStopAll).out.Stops[2]? = some zeroStop ∧
    (RestartAllSubServices testCollab nilDaemon zeroRestartAll).err
      = some (noSuchService testCollab "b") ∧
    (RestartAllSubServices testCollab nilDaemon zeroRestartAll).sd.trace
      = [Call.Restart (some 0)] :=
  have h := bulk_fail_fast testCollab nilDaemon 1 (noSuchService testCollab "b")
    (by decide)
  have hs := h.1 zeroStopAll rfl rfl
  have hr := h.2 zeroRestartAll rfl rfl
  ⟨hs.1, by rw [hs.2.1]; rfl, hs.2.2.2 2 (by decide) (by decide), hr.1,
    by rw [hr.2.1]; rfl⟩

/-- C5 witness: two subservices, the first of which refuses to stop: the count is 1. -/
theorem stopAll_count_witness :
    (StopAllSubServices testCollab twoDaemon zeroStopAll).out.Count
      = ((StopAllSubServices testCollab twoDaemon zeroStopAll).out.Stops.countP
          (fun r => r.Ok) : Nat) ∧
    (StopAllSubServices testCollab twoDaemon zeroStopAll).out.Count = 1 :=
  ⟨stopAll_count testCollab twoDaemon zeroStopAll rfl (by decide), by decide⟩

/-- C6 (as stated, refuted): two subservices, the `Stop` of the first returns false;
StopAllSubServices returns no error, calls `Stop` on the second as well, and index 1 of
the result holds the second's response, not the zero value. -/
theorem scenarioD_stopAll_continues :
    (testCollab.Stop (some 0) twoDaemon.world).1 = false ∧
    (StopAllSubServices testCollab twoDaemon zeroStopAll).err = none ∧
    (StopAllSubServices testCollab twoDaemon zeroStopAll).out.Stops
      = [⟨false, "a"⟩, ⟨true, "b"⟩] ∧
    (StopAllSubServices testCollab twoDaemon zeroStopAll).out.Stops[1]? ≠ some zeroStop ∧
    (StopAllSubServices testCollab twoDaemon zeroStopAll).sd.trace
      = [Call.Stop (some 0), Call.Stop (some 1)] := by
  refine ⟨rfl, rfl, rfl, by decide, rfl⟩

/-- C6 (amended): for a registry holding exactly two subservices where the `Stop` of the
first in snapshot order returns false, StopAllSubServices returns no error; its result
has length 2; index 0 holds Ok = false with the first identifier; `Stop` is then called
on the second subservice, once, and index 1 holds its outcome with the second
identifier; the count grows only when the second stop succeeded. -/
theorem scenarioD_amended (E : Collab σ) (s : SkynetDaemon σ) (a b : String) (p q : Nat)
    (out : StopAllSubServicesResponse)
    (hreg : s.Services.entries = [(a, some p), (b, some q)])
    (hfail : (E.Stop (some p) s.world).1 = false) :
    (StopAllSubServices E s out).err = none ∧
    (StopAllSubServices E s out).out.Stops
      = [⟨false, a⟩, ⟨(E.Stop (some q) (E.Stop (some p) s.world).2).1, b⟩] ∧
    (StopAllSubServices E s out).sd.trace
      = s.trace ++ [Call.Stop (some p), Call.Stop (some q)] ∧
    (StopAllSubServices E s out).sd.world
      = (E.Stop (some q) (E.Stop (some p) s.world).2).2 ∧
    (StopAllSubServices E s out).out.Count
      = if (E.Stop (some q) (E.Stop (some p) s.world).2).1 then wrapInt (out.Count + 1)
        else out.Count := by
  have hab : a ≠ b := by
    have h := s.Services.nodup
    rw [hreg] at h
    simpa using h
  have hba : (b == a) = false := by simpa using fun h => hab h.symm
  have hk : s.Services.keys = [a, b] := by simp [GoMap.keys, hreg]
  have hga : getSubService s a = some p := by
    simp [getSubService, GoMap.get?, hreg, List.lookup]
  have hgb : ∀ w tr, getSubService (⟨s.Services, w, tr⟩ : SkynetDaemon σ) b = some q := by
    intro w tr
    simp [getSubService, GoMap.get?, hreg, List.lookup, hba]
  simp only [StopAllSubServices, hk]
  rw [stopAllLoop_cons_step E a [b] 0 s _ p hga, stopAllLoop_cons_step E b [] _ _ _ q (hgb _ _)]
  simp [stopAllLoop, hfail, zeroStop]
  split <;> simp

/-- C6 witness: the two-subservice daemon whose first `Stop` returns false. -/
theorem scenarioD_amended_witness :
    (StopAllSubServices testCollab twoDaemon zeroStopAll).err = none ∧
    (StopAllSubServices testCollab twoDaemon zeroStopAll).sd.trace
      = [Call.Stop (some 0), Call.Stop (some 1)] :=
  have h := scenarioD_amended testCollab twoDaemon "a" "b" 0 1 zeroStopAll rfl rfl
  ⟨h.1, h.2.2.1⟩

/-- C7: when the record is built and the start attempt fails (`Start` returns an error
or false), StartSubService returns an error, yet the registry afterwards maps the newly
generated identifier to the new record, and (the generated identifier being new, as the
generator guarantees) every entry present before the call is still there, unchanged. -/
theorem start_failure_keeps_record (E : Collab σ) (s : SkynetDaemon σ)
    (req : StartSubServiceRequest) (out : StartSubServiceResponse)
    (hnew : (newRecord E s req).1.2 = none)
    (hfail : (startResult E s req).1.2 ≠ none ∨ (startResult E s req).1.1 = false)
    (hfresh : newId E s ∉ s.Services.keys) :
    (StartSubService E s req out).err ≠ none ∧
    (StartSubService E s req out).out.UUID = newId E s ∧
    (StartSubService E s req out).sd.Services.get? (newId E s)
      = some (newRecord E s req).1.1 ∧
    (∀ id p, s.Services.get? id = some p →
      (StartSubService E s req out).sd.Services.get? id = some p) ∧
    (StartSubService E s req out).sd.Services.entries
      = s.Services.entries ++ [(newId E s, (newRecord E s req).1.1)] := by
  obtain ⟨h1, h2, h3⟩ := StartSubService_of_built E s req out hnew
  refine ⟨?_, h2, ?_, ?_, ?_⟩
  · rw [h3]
    cases hm : (startResult E s req).1.2 with
    | some m => simp
    | none =>
      rcases hfail with hf | hf
      · exact absurd hm hf
      · simp [hf]
  · rw [h1]; exact GoMap.get?_insert_self _ _ _
  · intro id p hp
    have hne : id ≠ newId E s := by
      intro h; subst h
      exact hfresh (GoMap.mem_keys_of_get? _ _ _ hp)
    rw [h1, GoMap.get?_insert_of_ne _ _ _ _ hne]; exact hp
  · rw [h1]; exact insertEntry_of_not_mem _ _ _ hfresh

/-- C7 witness: starting the binary `bad`, whose `Start` returns false. -/
theorem start_failure_keeps_record_witness :
    (StartSubService testCollab startDaemon ⟨"bad", ""⟩ ⟨""⟩).err ≠ none ∧
    (StartSubService testCollab startDaemon ⟨"bad", ""⟩ ⟨""⟩).sd.Services.get? "c"
      = some (some 2) ∧
    (StartSubService testCollab startDaemon ⟨"bad", ""⟩ ⟨""⟩).sd.Services.get? "a"
      = some (some 0) :=
  have h := start_failure_keeps_record testCollab startDaemon ⟨"bad", ""⟩ ⟨""⟩ rfl
    (Or.inr rfl) (by decide)
  ⟨h.1, h.2.2.1, h.2.2.2.1 "a" (some 0) rfl⟩

/-- C8: when the record is built, StartSubService returns no error exactly when `Start`
returns (true, no error); when `Start` returns an error of message `m` the returned
message is `Service failed to start: ` followed by `m`; when `Start` returns false
without error the returned message is `Service failed to start`. -/
theorem start_error_messages (E : Collab σ) (s : SkynetDaemon σ)
    (req : StartSubServiceRequest) (out : StartSubServiceResponse)
    (hnew : (newRecord E s req).1.2 = none) :
    ((StartSubService E s req out).err = none ↔ (startResult E s req).1 = (true, none)) ∧
    (∀ m, (startResult E s req).1.2 = some m →
      (StartSubService E s req out).err = some ("Service failed to start: " ++ m)) ∧
    ((startResult E s req).1 = (false, none) →
      (StartSubService E s req out).err = some "Service failed to start") := by
  obtain ⟨-, -, h3⟩ := StartSubService_of_built E s req out hnew
  rw [h3]
  refine ⟨?_, ?_, ?_⟩
  · rcases hr : (startResult E s req).1 with ⟨b, me⟩
    cases me with
    | some m => simp
    | none => cases b <;> simp
  · intro m hm; simp [hm]
  · intro h; simp [h]

/-- C8 witness: the binaries `/bin/c` (starts), `err` (start error) and `bad` (false). -/
theorem start_error_messages_witness :
    (StartSubService testCollab startDaemon ⟨"/bin/c", ""⟩ ⟨""⟩).err = none ∧
    (StartSubService testCollab startDaemon ⟨"err", ""⟩ ⟨""⟩).err
      = some "Service failed to start: exec failed" ∧
    (StartSubService testCollab startDaemon ⟨"bad", ""⟩ ⟨""⟩).err
      = some "Service failed to start" :=
  ⟨(start_error_messages testCollab startDaemon ⟨"/bin/c", ""⟩ ⟨""⟩ rfl).1.2 rfl,
    (start_error_messages testCollab startDaemon ⟨"err", ""⟩ ⟨""⟩ rfl).2.1 "exec failed" rfl,
    (start_error_messages testCollab startDaemon ⟨"bad", ""⟩ ⟨""⟩ rfl).2.2 rfl⟩

/-- C9 (as stated, refuted): on a non-empty registry whose entry holds a nil record,
ListSubServices dereferences nil and panics: it returns neither a mapping nor an
error. -/
theorem list_nil_record_panics :
    nilOnlyDaemon.Services.len ≠ 0 ∧
    ListSubServices testCollab nilOnlyDaemon ⟨GoMap.empty⟩ = none := by
  exact ⟨by decide, rfl⟩

/-- C9 (amended): for every non-empty registry in which every entry holds a non-nil
record, ListSubServices returns no error and a mapping whose keys are exactly the keys
of the registry, the entry under each id carrying that id as UUID with the binary
path, arguments and running flag of its record; the daemon is left as it was. -/
theorem list_matches_registry (E : Collab σ) (s : SkynetDaemon σ)
    (out : ListSubServicesResponse) (hne : s.Services.len ≠ 0)
    (hrec : ∀ e ∈ s.Services.entries, e.2 ≠ none) :
    ∃ r, ListSubServices E s out = some r ∧ r.err = none ∧ r.sd = s ∧
      r.out.Services.keys = s.Services.keys ∧
      (∀ id, id ∈ r.out.Services.keys ↔ id ∈ s.Services.keys) ∧
      (∀ id a, s.Services.get? id = some (some a) →
        r.out.Services.get? id = some
          { UUID := id, ServicePath := (E.deref s.world a).ServicePath,
            Args := (E.deref s.world a).Args, Running := (E.deref s.world a).running }) := by
  obtain ⟨m2, h1, h2, -, h4⟩ := listLoop_spec E s.world s.Services.entries GoMap.empty hrec
    s.Services.nodup (by simp [GoMap.keys, GoMap.empty])
  refine ⟨⟨s, ⟨m2⟩, none⟩, ?_, rfl, rfl, ?_, ?_, ?_⟩
  · simp [ListSubServices, hne, h1]
  · simpa [GoMap.keys, GoMap.empty] using h2
  · intro id
    have : m2.keys = s.Services.keys := by simpa [GoMap.keys, GoMap.empty] using h2
    simp [this]
  · intro id a ha
    exact h4 id a ha

/-- C9 witness: the two-subservice daemon. -/
theorem list_matches_registry_witness :
    ∃ r, ListSubServices testCollab twoDaemon ⟨GoMap.empty⟩ = some r ∧ r.err = none ∧
      r.out.Services.keys = ["a", "b"] ∧
      r.out.Services.get? "b" = some ⟨"b", "/bin/b", "-y", true⟩ :=
  have h := list_matches_registry testCollab twoDaemon ⟨GoMap.empty⟩ (by decide)
    (by decide)
  h.elim fun r hr => ⟨r, hr.1, hr.2.1, hr.2.2.2.1, hr.2.2.2.2.2 "b" 1 rfl⟩

/-- C10: StopSubService, RegisterSubService, UnregisterSubService, RestartSubService,
SubServiceLogLevel, ListSubServices, StopAllSubServices, RestartAllSubServices,
LogLevel and Stop leave the registry exactly as it was.  StartSubService keeps every
key a key, keeps the record of every key other than the identifier it generates, and
(the generated identifier being new, as the generator guarantees) keeps the record of
every key; the keys it leaves are the old ones, or the old ones and the generated
identifier. -/
theorem registry_monotone (E : Collab σ) (s : SkynetDaemon σ) (id level : String)
    (sreq : StartSubServiceRequest) (o0 : StartSubServiceResponse)
    (o1 : StopSubServiceResponse) (o2 : RegisterSubServiceResponse)
    (o3 : UnregisterSubServiceResponse) (o4 : RestartSubServiceResponse)
    (o5 : SubServiceLogLevelResponse) (o6 : ListSubServicesResponse)
    (o7 : StopAllSubServicesResponse) (o8 : RestartAllSubServicesResponse)
    (o9 : LogLevelResponse) (o10 : StopResponse) :
    (StopSubService E s ⟨id⟩ o1).sd.Services = s.Services ∧
    (RegisterSubService E s ⟨id⟩ o2).sd.Services = s.Services ∧
    (UnregisterSubService E s ⟨id⟩ o3).sd.Services = s.Services ∧
    (RestartSubService E s ⟨id⟩ o4).sd.Services = s.Services ∧
    (SubServiceLogLevel E s ⟨id, level⟩ o5).sd.Services = s.Services ∧
    (∀ r, ListSubServices E s o6 = some r → r.sd.Services = s.Services) ∧
    (StopAllSubServices E s o7).sd.Services = s.Services ∧
    (RestartAllSubServices E s o8).sd.Services = s.Services ∧
    (LogLevel E s ⟨level⟩ o9).sd.Services = s.Services ∧
    (Stop E s o10).sd.Services = s.Services ∧
    (∀ k, k ∈ s.Services.keys → k ∈ (StartSubService E s sreq o0).sd.Services.keys) ∧
    (∀ k p, k ≠ newId E s → s.Services.get? k = some p →
      (StartSubService E s sreq o0).sd.Services.get? k = some p) ∧
    (newId E s ∉ s.Services.keys → ∀ k p, s.Services.get? k = some p →
      (StartSubService E s sreq o0).sd.Services.get? k = some p) ∧
    ((StartSubService E s sreq o0).sd.Services.keys = s.Services.keys ∨
      (StartSubService E s sreq o0).sd.Services.keys = s.Services.keys ++ [newId E s]) := by
  have hstart := StartSubService_Services E s sreq o0
  have hkeys : (StartSubService E s sreq o0).sd.Services.keys = s.Services.keys ∨
      (StartSubService E s sreq o0).sd.Services.keys = s.Services.keys ++ [newId E s] := by
    rw [hstart]
    cases (newRecord E s sreq).1.2 with
    | some e => exact Or.inl rfl
    | none =>
      by_cases hm : newId E s ∈ s.Services.keys
      · exact Or.inl (keys_insertEntry_of_mem _ _ _ hm)
      · refine Or.inr ?_
        simp only [GoMap.keys, GoMap.insert]
        rw [insertEntry_of_not_mem _ _ _ hm]
        simp
  have hne : ∀ k p, k ≠ newId E s → s.Services.get? k = some p →
      (StartSubService E s sreq o0).sd.Services.get? k = some p := by
    intro k p hk hp
    rw [hstart]
    cases (newRecord E s sreq).1.2 with
    | some e => exact hp
    | none => simp only []; rw [GoMap.get?_insert_of_ne _ _ _ _ hk]; exact hp
  refine ⟨StopSubService_Services E s _ o1, RegisterSubService_Services E s _ o2,
    UnregisterSubService_Services E s _ o3, RestartSubService_Services E s _ o4,
    SubServiceLogLevel_Services E s _ o5, ?_, ?_, RestartAllSubServices_Services E s o8,
    rfl, ?_, ?_, hne, ?_, hkeys⟩
  · intro r hr; rw [ListSubServices_sd E s o6 r hr]
  · obtain ⟨_, -, -, -, -, -, h⟩ := StopAllSubServices_spec E s o7
    exact h
  · exact foldl_stopOne_Services E s.Services.entries s
  · intro k hk
    rcases hkeys with h | h
    · rw [h]; exact hk
    · rw [h]; exact List.mem_append_left _ hk
  · intro hfresh k p hp
    refine hne k p ?_ hp
    intro h; subst h
    exact hfresh (GoMap.mem_keys_of_get? _ _ _ hp)

/-- C10 witness: on the two-subservice daemon, a start that draws the new identifier
`c` keeps `a` mapped to its record and adds `c` to the keys; stopping `a` leaves the
registry as it was. -/
theorem registry_monotone_witness :
    (StartSubService testCollab startDaemon ⟨"/bin/c", ""⟩ ⟨""⟩).sd.Services.get? "a"
      = some (some 0) ∧
    (StartSubService testCollab startDaemon ⟨"/bin/c", ""⟩ ⟨""⟩).sd.Services.keys
      = ["a", "b", "c"] ∧
    (StopSubService testCollab startDaemon ⟨"a"⟩ zeroStop).sd.Services
      = startDaemon.Services :=
  have h := registry_monotone testCollab startDaemon "a" "DEBUG" ⟨"/bin/c", ""⟩ ⟨""⟩
    zeroStop zeroStop zeroStop zeroRestart ⟨false, "", ""⟩ ⟨GoMap.empty⟩ zeroStopAll
    zeroRestartAll ⟨false, ""⟩ ⟨false⟩
  ⟨h.2.2.2.2.2.2.2.2.2.2.2.2.1 (by decide) "a" (some 0) rfl, by decide, h.1⟩

/-- C11: for an identifier that is a key of the registry with the non-nil record `a`,
StopSubService, RegisterSubService, UnregisterSubService and SubServiceLogLevel return
no error, set Ok to the boolean that the handle call (Stop, Register, Unregister,
SetLogLevel with the requested level) returns and echo the identifier (and the
level); RestartSubService returns no error and echoes the identifier; each makes
exactly one collaborator call, on the record `a`, and leaves the registry untouched. -/
theorem perId_success (E : Collab σ) (s : SkynetDaemon σ) (id level : String) (a : Nat)
    (o1 : StopSubServiceResponse) (o2 : RegisterSubServiceResponse)
    (o3 : UnregisterSubServiceResponse) (o4 : RestartSubServiceResponse)
    (o5 : SubServiceLogLevelResponse) (h : s.Services.get? id = some (some a)) :
    StopSubService E s ⟨id⟩ o1
      = ⟨⟨s.Services, (E.Stop (some a) s.world).2, s.trace ++ [Call.Stop (some a)]⟩,
          ⟨(E.Stop (some a) s.world).1, id⟩, none⟩ ∧
    RegisterSubService E s ⟨id⟩ o2
      = ⟨⟨s.Services, (E.Register (some a) s.world).2,
            s.trace ++ [Call.Register (some a)]⟩,
          ⟨(E.Register (some a) s.world).1, id⟩, none⟩ ∧
    UnregisterSubService E s ⟨id⟩ o3
      = ⟨⟨s.Services, (E.Unregister (some a) s.world).2,
            s.trace ++ [Call.Unregister (some a)]⟩,
          ⟨(E.Unregister (some a) s.world).1, id⟩, none⟩ ∧
    RestartSubService E s ⟨id⟩ o4
      = ⟨⟨s.Services, E.Restart (some a) s.world, s.trace ++ [Call.Restart (some a)]⟩,
          ⟨id⟩, none⟩ ∧
    SubServiceLogLevel E s ⟨id, level⟩ o5
      = ⟨⟨s.Services, (E.SetLogLevel (some a) level s.world).2,
            s.trace ++ [Call.SetLogLevel (some a) level]⟩,
          ⟨(E.SetLogLevel (some a) level s.world).1, id, level⟩, none⟩ := by
  have hg : getSubService s id = some a := getSubService_of_get? s id _ h
  refine ⟨?_, ?_, ?_, ?_, ?_⟩
  · simp [StopSubService, hg]
  · simp [RegisterSubService, hg]
  · simp [UnregisterSubService, hg]
  · simp [RestartSubService, hg]
  · simp [SubServiceLogLevel, hg]

/-- C11 witness: subservice `b` of the two-subservice daemon, at level DEBUG. -/
theorem perId_success_witness :
    (StopSubService testCollab twoDaemon ⟨"b"⟩ zeroStop).out = ⟨true, "b"⟩ ∧
    (StopSubService testCollab twoDaemon ⟨"b"⟩ zeroStop).sd.trace = [Call.Stop (some 1)] ∧
    (SubServiceLogLevel testCollab twoDaemon ⟨"b", "DEBUG"⟩ ⟨false, "", ""⟩).out
      = ⟨true, "b", "DEBUG"⟩ :=
  have h := perId_success testCollab twoDaemon "b" "DEBUG" 1 zeroStop zeroStop zeroStop
    zeroRestart ⟨false, "", ""⟩ rfl
  ⟨by rw [h.1]; rfl, by rw [h.1]; rfl, by rw [h.2.2.2.2]; rfl⟩

/-- C17: when `NewSubService` returns the error `e`, StartSubService returns `e`
unchanged; its only collaborator calls are the identifier generator and
`NewSubService`, so `Start` is never called; the registry is left exactly as it was;
the response carries the generated identifier, which (being new, as the generator
guarantees) is not a key of the registry. -/
theorem start_construction_failure (E : Collab σ) (s : SkynetDaemon σ)
    (req : StartSubServiceRequest) (out : StartSubServiceResponse) (e : String)
    (hnew : (newRecord E s req).1.2 = some e) :
    (StartSubService E s req out).err = some e ∧
    (StartSubService E s req out).sd.trace
      = s.trace ++ [Call.UUID, Call.NewSubService req.BinaryName req.Args (newId E s)] ∧
    (∀ p, Call.Start p ∉ (StartSubService E s req out).sd.trace.drop s.trace.length) ∧
    (StartSubService E s req out).sd.world = (newRecord E s req).2 ∧
    (StartSubService E s req out).sd.Services = s.Services ∧
    (StartSubService E s req out).out.UUID = newId E s ∧
    (newId E s ∉ s.Services.keys →
      (StartSubService E s req out).out.UUID
        ∉ (StartSubService E s req out).sd.Services.keys) := by
  have hrun : StartSubService E s req out
      = ⟨⟨s.Services, (newRecord E s req).2,
            s.trace ++ [Call.UUID, Call.NewSubService req.BinaryName req.Args (newId E s)]⟩,
          ⟨newId E s⟩, some e⟩ := by
    simp only [newRecord] at hnew
    simp [StartSubService, hnew, newRecord, newId]
  rw [hrun]
  refine ⟨rfl, rfl, ?_, rfl, rfl, rfl, fun h => h⟩
  intro p hp
  simp at hp

/-- C17 witness: an empty binary name, which the test double refuses to build. -/
theorem start_construction_failure_witness :
    (StartSubService testCollab startDaemon ⟨"", ""⟩ ⟨""⟩).err = some "no binary" ∧
    (StartSubService testCollab startDaemon ⟨"", ""⟩ ⟨""⟩).sd.Services
      = startDaemon.Services ∧
    (StartSubService testCollab startDaemon ⟨"", ""⟩ ⟨""⟩).out.UUID = "c" ∧
    "c" ∉ (StartSubService testCollab startDaemon ⟨"", ""⟩ ⟨""⟩).sd.Services.keys :=
  have h := start_construction_failure testCollab startDaemon ⟨"", ""⟩ ⟨""⟩ "no binary" rfl
  ⟨h.1, h.2.2.2.2.1, h.2.2.2.2.2.1, h.2.2.2.2.2.2 (by decide)⟩

/-- C18: for an identifier absent from the registry, StopSubService, RegisterSubService,
UnregisterSubService, RestartSubService and SubServiceLogLevel return the response
exactly as it was passed in and the daemon exactly as it was (registry, external
state and call log: no handle is called), together with the not-found error. -/
theorem notFound_atomic (E : Collab σ) (s : SkynetDaemon σ) (id level : String)
    (o1 : StopSubServiceResponse) (o2 : RegisterSubServiceResponse)
    (o3 : UnregisterSubServiceResponse) (o4 : RestartSubServiceResponse)
    (o5 : SubServiceLogLevelResponse) (h : s.Services.get? id = none) :
    StopSubService E s ⟨id⟩ o1 = ⟨s, o1, some (noSuchService E id)⟩ ∧
    RegisterSubService E s ⟨id⟩ o2 = ⟨s, o2, some (noSuchService E id)⟩ ∧
    UnregisterSubService E s ⟨id⟩ o3 = ⟨s, o3, some (noSuchService E id)⟩ ∧
    RestartSubService E s ⟨id⟩ o4 = ⟨s, o4, some (noSuchService E id)⟩ ∧
    SubServiceLogLevel E s ⟨id, level⟩ o5 = ⟨s, o5, some (noSuchService E id)⟩ := by
  have hg : getSubService s id = none := by simp [getSubService, h]
  refine ⟨?_, ?_, ?_, ?_, ?_⟩
  · simp [StopSubService, hg]
  · simp [RegisterSubService, hg]
  · simp [UnregisterSubService, hg]
  · simp [RestartSubService, hg]
  · simp [SubServiceLogLevel, hg]

/-- C18 witness: the identifier `zz` on the two-subservice daemon, with a response
that already holds values. -/
theorem notFound_atomic_witness :
    (StopSubService testCollab twoDaemon ⟨"zz"⟩ ⟨true, "old"⟩).out = ⟨true, "old"⟩ ∧
    (StopSubService testCollab twoDaemon ⟨"zz"⟩ ⟨true, "old"⟩).sd.trace = [] ∧
    (SubServiceLogLevel testCollab twoDaemon ⟨"zz", "DEBUG"⟩ ⟨true, "old", "INFO"⟩).out
      = ⟨true, "old", "INFO"⟩ :=
  have h := notFound_atomic testCollab twoDaemon "zz" "DEBUG" ⟨true, "old"⟩ zeroStop
    zeroStop zeroRestart ⟨true, "old", "INFO"⟩ rfl
  ⟨by rw [h.1], by rw [h.1]; rfl, by rw [h.2.2.2.2]⟩

/-- C16: on a registry in which every entry holds a non-nil record, StopAllSubServices
returns no error whatever the `Stop` calls answer: `Stop` is called on every entry,
in order, and the result sequence echoes every key; and RestartAllSubServices returns
an error exactly when the registry is empty. -/
theorem bulk_no_error_on_records (E : Collab σ) (s : SkynetDaemon σ)
    (o1 : StopAllSubServicesResponse) (o2 : RestartAllSubServicesResponse)
    (hrec : ∀ e ∈ s.Services.entries, e.2 ≠ none) :
    (StopAllSubServices E s o1).err = none ∧
    (StopAllSubServices E s o1).sd.trace
      = s.trace ++ s.Services.entries.map (fun e => Call.Stop e.2) ∧
    (StopAllSubServices E s o1).out.Stops.map (fun r => r.UUID) = s.Services.keys ∧
    ((RestartAllSubServices E s o2).err ≠ none ↔ s.Services.entries = []) := by
  have hall := getSubService_ne_none_of_records s hrec
  have herr : (StopAllSubServices E s o1).err = none :=
    stopAllLoop_err_none E s.Services.keys 0 s _ hall
  refine ⟨herr, ?_, ?_, ?_⟩
  · have ht := stopAllLoop_trace E s.Services.keys 0 s
      { o1 with Stops := List.replicate s.Services.keys.length zeroStop } herr
    rw [map_keys_getSubService s Call.Stop] at ht
    exact ht
  · obtain ⟨filled, h1, -, h3, h4, -, -⟩ := StopAllSubServices_spec E s o1
    have hlen := h4 herr
    rw [h1, hlen, Nat.sub_self]
    simp only [List.replicate_zero, List.append_nil]
    rw [h3, hlen, List.take_length]
  · constructor
    · intro hne
      by_contra hnonempty
      have hk : s.Services.keys.length ≠ 0 := by
        simpa [GoMap.keys] using hnonempty
      apply hne
      simp only [RestartAllSubServices, hk, if_false]
      exact restartAllLoop_err_none E s.Services.keys 0 s _ hall
    · intro hempty
      have hk : s.Services.keys = [] := by simp [GoMap.keys, hempty]
      simp [RestartAllSubServices, hk]

/-- C16 witness: the two-subservice daemon, whose first `Stop` answers false. -/
theorem bulk_no_error_on_records_witness :
    (testCollab.Stop (some 0) twoDaemon.world).1 = false ∧
    (StopAllSubServices testCollab twoDaemon zeroStopAll).err = none ∧
    (StopAllSubServices testCollab twoDaemon zeroStopAll).sd.trace
      = [] ++ twoDaemon.Services.entries.map (fun e => Call.Stop e.2) ∧
    ((RestartAllSubServices testCollab twoDaemon zeroRestartAll).err ≠ none
      ↔ twoDaemon.Services.entries = []) :=
  have h := bulk_no_error_on_records testCollab twoDaemon zeroStopAll zeroRestartAll
    (by decide)
  ⟨rfl, h.1, h.2.1, h.2.2.2⟩

/-- C14 (as stated, refuted): with a generator that never repeats, a StartSubService
call whose record cannot be built writes the identifier `u` to its response, and the
mapping returned by the following ListSubServices call has no key `u`. -/
theorem start_unbuilt_id_not_listed :
    UniqueIds seqCollab seqIssued ∧
    (startMany seqCollab twoDaemon [⟨"", ""⟩]).2.map (fun o => o.UUID) = ["u"] ∧
    ∃ r, ListSubServices seqCollab (startMany seqCollab twoDaemon [⟨"", ""⟩]).1
        ⟨GoMap.empty⟩ = some r ∧
      r.err = none ∧ "u" ∉ r.out.Services.keys := by
  refine ⟨seqCollab_unique, rfl, ?_⟩
  obtain ⟨r, h1, h2, h3⟩ := ListSubServices_of_records seqCollab
    (startMany seqCollab twoDaemon [⟨"", ""⟩]).1 ⟨GoMap.empty⟩ (by decide) (by decide)
  refine ⟨r, h1, h2, ?_⟩
  rw [h3]
  decide

/-- C14 (amended): for every series of StartSubService calls on one daemon, with an
identifier generator that never returns the same identifier twice, the identifiers
written to the responses are pairwise distinct, one per call; each of them whose call
built its record is a key of the registry after the series, and then of the mapping
that a following ListSubServices call returns, which it does without error when every
record of the registry is non-nil. -/
theorem start_ids_unique (E : Collab σ) (issued : σ → String → Prop)
    (hU : UniqueIds E issued) (s : SkynetDaemon σ) (reqs : List StartSubServiceRequest) :
    ((startMany E s reqs).2.map (fun o => o.UUID)).Nodup ∧
    (startMany E s reqs).2.length = reqs.length ∧
    (∀ o ∈ (startMany E s reqs).2, o.built = true →
      o.UUID ∈ (startMany E s reqs).1.Services.keys) ∧
    (∀ out : ListSubServicesResponse,
      (∀ e ∈ (startMany E s reqs).1.Services.entries, e.2 ≠ none) →
      ∀ o ∈ (startMany E s reqs).2, o.built = true →
        ∃ r, ListSubServices E (startMany E s reqs).1 out = some r ∧ r.err = none ∧
          o.UUID ∈ r.out.Services.keys) := by
  refine ⟨startMany_nodup E issued hU reqs s, startMany_length E reqs s,
    startMany_built_keys E reqs s, ?_⟩
  intro out hrec o ho hb
  have hk := startMany_built_keys E reqs s o ho hb
  have hne : (startMany E s reqs).1.Services.len ≠ 0 := by
    intro hz
    have hnil : (startMany E s reqs).1.Services.entries = [] :=
      List.length_eq_zero.1 hz
    simp [GoMap.keys, hnil] at hk
  obtain ⟨r, h1, h2, h3⟩ := ListSubServices_of_records E _ out hne hrec
  exact ⟨r, h1, h2, by rw [h3]; exact hk⟩

/-- C14 witness: three calls on the two-subservice daemon: one that starts, one whose
record cannot be built, one whose start returns false. -/
theorem start_ids_unique_witness :
    ((startMany seqCollab twoDaemon [⟨"/bin/c", ""⟩, ⟨"", ""⟩, ⟨"bad", ""⟩]).2.map
      (fun o => o.UUID)).Nodup ∧
    (startMany seqCollab twoDaemon [⟨"/bin/c", ""⟩, ⟨"", ""⟩, ⟨"bad", ""⟩]).2.map
      (fun o => (o.UUID, o.built)) = [("u", true), ("uu", false), ("uuu", true)] ∧
    (startMany seqCollab twoDaemon [⟨"/bin/c", ""⟩, ⟨"", ""⟩, ⟨"bad", ""⟩]).1.Services.keys
      = ["a", "b", "u", "uuu"] :=
  ⟨(start_ids_unique seqCollab seqIssued seqCollab_unique twoDaemon
      [⟨"/bin/c", ""⟩, ⟨"", ""⟩, ⟨"bad", ""⟩]).1, by decide, by decide⟩

/-- C15 (the code departs from the claim): on every registry, ListSubServices reads
the map without holding the lock, so its accesses break the locking discipline, while
those of getSubService (hence of every per-id operation), StartSubService,
StopAllSubServices, RestartAllSubServices and Stop all keep it. -/
theorem list_reads_without_lock (E : Collab σ) (s : SkynetDaemon σ)
    (req : StartSubServiceRequest) :
    disciplined (ListSubServicesAccess s) = false ∧
    disciplined getSubServiceAccess = true ∧
    disciplined (StartSubServiceAccess E s req) = true ∧
    disciplined (StopAllSubServicesAccess s) = true ∧
    disciplined (RestartAllSubServicesAccess s) = true ∧
    disciplined StopAccess = true := by
  refine ⟨?_, rfl, ?_, ?_, ?_, rfl⟩
  · unfold ListSubServicesAccess disciplined
    split <;> rfl
  · unfold StartSubServiceAccess disciplined
    split <;> rfl
  · simp [StopAllSubServicesAccess, disciplined, lockedFrom, stepsAccess_disciplined]
  · unfold RestartAllSubServicesAccess disciplined
    split
    · rfl
    · simp [lockedFrom, stepsAccess_disciplined]

/-- C13: whatever the handles answer, the whole-daemon Stop returns no error with
Ok = true; it runs `Stop` on every entry of the registry, once each and in iteration
order, every `Stop` acting on the external state that the previous one left; it then
requests the shutdown, once; the registry is left untouched. -/
theorem daemon_stop_best_effort (E : Collab σ) (s : SkynetDaemon σ) (out : StopResponse) :
    Stop E s out
      = ⟨⟨s.Services, s.Services.entries.foldl (fun w e => (E.Stop e.2 w).2) s.world,
            s.trace ++ s.Services.entries.map (fun e => Call.Stop e.2) ++ [Call.Shutdown]⟩,
          ⟨true⟩, none⟩ ∧
    (Stop E s out).err = none ∧
    (Stop E s out).out.Ok = true ∧
    (Stop E s out).sd.world
      = s.Services.entries.foldl (fun w e => (E.Stop e.2 w).2) s.world ∧
    (Stop E s out).sd.trace
      = s.trace ++ s.Services.entries.map (fun e => Call.Stop e.2) ++ [Call.Shutdown] ∧
    ((s.Services.entries.map (fun e => Call.Stop e.2) ++ [Call.Shutdown]).count
      Call.Shutdown = 1) ∧
    (Stop E s out).sd.Services = s.Services := by
  have hS := foldl_stopOne_Services E s.Services.entries s
  have hW := foldl_stopOne_world E s.Services.entries s
  have hT : (Stop E s out).sd.trace
      = s.trace ++ s.Services.entries.map (fun e => Call.Stop e.2) ++ [Call.Shutdown] := by
    simp [Stop, foldl_stopOne_trace]
  refine ⟨?_, rfl, rfl, hW, hT, ?_, hS⟩
  · have h1 : (Stop E s out).sd
        = ⟨s.Services, s.Services.entries.foldl (fun w e => (E.Stop e.2 w).2) s.world,
            s.trace ++ s.Services.entries.map (fun e => Call.Stop e.2) ++ [Call.Shutdown]⟩ := by
      rw [← hT]
      show (⟨_, _, _⟩ : SkynetDaemon σ) = _
      rw [SkynetDaemon.mk.injEq]
      exact ⟨hS, hW, rfl⟩
    rw [← h1]
    rfl
  · rw [List.count_append]
    have h0 : (s.Services.entries.map (fun e => Call.Stop e.2)).count Call.Shutdown = 0 := by
      rw [List.count_eq_zero]
      intro hm
      obtain ⟨e, -, he⟩ := List.mem_map.1 hm
      cases he
    rw [h0]
    simp

/-- C12: when StopAllSubServices, or RestartAllSubServices, returns no error, the
identifiers echoed by its result sequence are, position by position, the keys of the
registry in snapshot order, and they are pairwise distinct; every registry entry has
been stopped (restarted) exactly once, in that order: the external state is the one
obtained by running `Stop` (`Restart`) on the record of each entry in turn, each in the
state the previous one left, the log holds one such call per entry, and each slot
holds the answer of its `Stop` with its identifier; the registry is untouched. -/
theorem bulk_results_aligned (E : Collab σ) (s : SkynetDaemon σ) :
    (∀ out : StopAllSubServicesResponse, (StopAllSubServices E s out).err = none →
      (StopAllSubServices E s out).out.Stops.map (fun r => r.UUID) = s.Services.keys ∧
      ((StopAllSubServices E s out).out.Stops.map (fun r => r.UUID)).Nodup ∧
      (∀ i : Nat, ((StopAllSubServices E s out).out.Stops[i]?).map (fun r => r.UUID)
        = s.Services.keys[i]?) ∧
      (StopAllSubServices E s out).sd.trace
        = s.trace ++ s.Services.entries.map (fun e => Call.Stop e.2) ∧
      (StopAllSubServices E s out).sd.world
        = (s.Services.entries.foldl (fun acc e =>
            ((E.Stop e.2 acc.1).2, acc.2 ++ [OkResponse.mk (E.Stop e.2 acc.1).1 e.1]))
            (s.world, [])).1 ∧
      (StopAllSubServices E s out).out.Stops
        = (s.Services.entries.foldl (fun acc e =>
            ((E.Stop e.2 acc.1).2, acc.2 ++ [OkResponse.mk (E.Stop e.2 acc.1).1 e.1]))
            (s.world, [])).2 ∧
      (StopAllSubServices E s out).sd.Services = s.Services) ∧
    (∀ out : RestartAllSubServicesResponse, (RestartAllSubServices E s out).err = none →
      (RestartAllSubServices E s out).out.Restarts.map (fun r => r.UUID)
        = s.Services.keys ∧
      ((RestartAllSubServices E s out).out.Restarts.map (fun r => r.UUID)).Nodup ∧
      (∀ i : Nat, ((RestartAllSubServices E s out).out.Restarts[i]?).map (fun r => r.UUID)
        = s.Services.keys[i]?) ∧
      (RestartAllSubServices E s out).sd.trace
        = s.trace ++ s.Services.entries.map (fun e => Call.Restart e.2) ∧
      (RestartAllSubServices E s out).sd.world
        = s.Services.entries.foldl (fun w e => E.Restart e.2 w) s.world ∧
      (RestartAllSubServices E s out).out.Restarts
        = s.Services.keys.map RestartSubServiceResponse.mk ∧
      (RestartAllSubServices E s out).sd.Services = s.Services) := by
  constructor
  · intro out herr
    obtain ⟨filled, h1, -, h3, h4, -, h6⟩ := StopAllSubServices_spec E s out
    have hlen := h4 herr
    have hmap : (StopAllSubServices E s out).out.Stops.map (fun r => r.UUID)
        = s.Services.keys := by
      rw [h1, hlen, Nat.sub_self]
      simp only [List.replicate_zero, List.append_nil]
      rw [h3, hlen, List.take_length]
    have hrun := stopAllLoop_run E s s.Services.keys [] s.Services.keys.length s out.Count
      rfl (Nat.le_refl _) herr
    simp only [List.length_nil, List.nil_append, Nat.sub_self, List.replicate_zero,
      List.append_nil] at hrun
    have hfold := foldl_keys_getSubService s
      (fun (acc : σ × List StopSubServiceResponse) (u : String) (p : Ptr) =>
        ((E.Stop p acc.1).2, acc.2 ++ [OkResponse.mk (E.Stop p acc.1).1 u])) (s.world, [])
    simp only [] at hfold
    rw [hfold] at hrun
    refine ⟨hmap, ?_, ?_, ?_, hrun.1, hrun.2, h6⟩
    · rw [hmap]; exact s.Services.nodup
    · intro i; rw [← hmap, List.getElem?_map]
    · have ht := stopAllLoop_trace E s.Services.keys 0 s
        { out with Stops := List.replicate s.Services.keys.length zeroStop } herr
      rw [map_keys_getSubService s Call.Stop] at ht
      exact ht
  · intro out herr
    have hne : s.Services.keys.length ≠ 0 := by
      intro hz
      simp [RestartAllSubServices, hz] at herr
    obtain ⟨filled, h1, -, h3, h4, h6⟩ := RestartAllSubServices_spec E s out hne
    have hlen := h4 herr
    have hmap : (RestartAllSubServices E s out).out.Restarts.map (fun r => r.UUID)
        = s.Services.keys := by
      rw [h1, hlen, Nat.sub_self]
      simp only [List.replicate_zero, List.append_nil]
      rw [h3, hlen, List.take_length]
    have herr2 : (restartAllLoop E s.Services.keys 0 s
        { out with Restarts := List.replicate s.Services.keys.length zeroRestart }).err
        = none := by
      simpa only [RestartAllSubServices, hne, if_false] using herr
    refine ⟨hmap, ?_, ?_, ?_, ?_, ?_, h6⟩
    · rw [hmap]; exact s.Services.nodup
    · intro i; rw [← hmap, List.getElem?_map]
    · have ht := restartAllLoop_trace E s.Services.keys 0 s _ herr2
      rw [map_keys_getSubService s Call.Restart] at ht
      simpa only [RestartAllSubServices, hne, if_false] using ht
    · have hw := restartAllLoop_world E s.Services.keys 0 s _ herr2
      have hfold := foldl_keys_getSubService s
        (fun (w : σ) (_ : String) (p : Ptr) => E.Restart p w) s.world
      simp only [] at hfold
      rw [hfold] at hw
      simpa only [RestartAllSubServices, hne, if_false] using hw
    · rw [← hmap, List.map_map]
      have hid : (RestartSubServiceResponse.mk ∘ fun r => r.UUID)
          = (id : RestartSubServiceResponse → RestartSubServiceResponse) := by
        funext r; rfl
      rw [hid, List.map_id]

/-- C12 witness: the two-subservice daemon, whose bulk calls end without error: the
first `Stop` answers false and leaves `a` running, the second stops `b`. -/
theorem bulk_results_aligned_witness :
    (StopAllSubServices testCollab twoDaemon zeroStopAll).out.Stops.map (fun r => r.UUID)
      = ["a", "b"] ∧
    (StopAllSubServices testCollab twoDaemon zeroStopAll).out.Stops
      = [⟨false, "a"⟩, ⟨true, "b"⟩] ∧
    (StopAllSubServices testCollab twoDaemon zeroStopAll).sd.world.heap
      = [⟨"/bin/a", "-x", true⟩, ⟨"/bin/b", "-y", false⟩] ∧
    (RestartAllSubServices testCollab twoDaemon zeroRestartAll).sd.trace
      = [Call.Restart (some 0), Call.Restart (some 1)] :=
  have h := bulk_results_aligned testCollab twoDaemon
  ⟨(h.1 zeroStopAll rfl).1, by rw [(h.1 zeroStopAll rfl).2.2.2.2.2.1]; rfl,
    by rw [(h.1 zeroStopAll rfl).2.2.2.2.1]; rfl, (h.2 zeroRestartAll rfl).2.2.2.1⟩

end Claims

end Skynet
